import Mathlib

/-!
Verification development for the WebInteractionTools repository.

The repository exposes browser-automation tools (clickText, clickSelector,
hoverText, hoverSelector, fillForm, processScreenshot, ...).  Each tool injects
a JavaScript snippet into the page; the snippet inspects the DOM, resolves an
element and synthesizes the interaction.  This file is a shallow embedding of
that in-page logic:

* the DOM is a tree of element nodes (tag name, attributes, computed style,
  bounding rect) and text nodes;
* `document.querySelectorAll` enumerates elements in document order (pre-order);
* JavaScript string operations (`includes`, `trim`, `toLowerCase`) are embedded
  as executable functions on `String`;
* DOM side effects (clicks dispatched, `target` attributes removed,
  `window.open` replacement, waits) are recorded as explicit action lists or
  state transformers;
* the possibility of a DOM call throwing (`element.click()`,
  `element.dispatchEvent(...)`) is modelled by oracle booleans carried on the
  element.

Numbers in the source are JavaScript doubles; all values relevant here are
small integers, embedded as `Nat`/`Int` (with `Math.round` of a positive
quotient embedded exactly on rationals represented as numerator/denominator
pairs of naturals).
-/

namespace WIT

/-! ### JavaScript string primitives -/

/-- `leadingChars pat s`: `s` starts with the characters of `pat`. -/
def leadingChars : List Char → List Char → Bool
  | [], _ => true
  | _ :: _, [] => false
  | c :: cs, d :: ds => c == d && leadingChars cs ds

/-- `listContains s pat`: `pat` occurs as a contiguous sublist of `s`. -/
def listContains : List Char → List Char → Bool
  | _, [] => true
  | [], _ :: _ => false
  | s@(_ :: rest), pat => leadingChars pat s || listContains rest pat

/-- JavaScript `s.includes(pat)` (substring containment; the empty pattern is
always contained). -/
def containsStr (s pat : String) : Bool :=
  listContains s.data pat.data

/-- ASCII lower-casing of one character (JavaScript `toLowerCase` restricted to
the ASCII range, which covers every tag name and attribute compared in the
source). -/
def charLower (c : Char) : Char :=
  if c.toNat ≥ 65 && c.toNat ≤ 90 then Char.ofNat (c.toNat + 32) else c

/-- JavaScript `s.toLowerCase()`. -/
def strToLower (s : String) : String := String.mk (s.data.map charLower)

/-- ASCII whitespace, as stripped by `trim`. -/
def isWsp (c : Char) : Bool := c == ' ' || c == '\t' || c == '\n' || c == '\r'

/-- JavaScript `s.trim()`. -/
def strTrim (s : String) : String :=
  String.mk (((s.data.dropWhile isWsp).reverse.dropWhile isWsp).reverse)

/-- Wrap a string in double quotes, as the backtick templates `"${x}"` in the
source do. -/
def quoteStr (s : String) : String := "\"" ++ s ++ "\""

/-! ### DOM model

A document is a tree whose inner nodes are elements and whose leaves are
elements or text nodes.  `DomForest` is the (mutually inductive) list of
children of an element.  An element position is addressed by the list of child
indices from the root; the root element (`<html>`, what
`document.documentElement` denotes) has path `[]`. -/

/-- Element position: child indices from the document root. -/
abbrev DPath := List Nat

/-- The data the in-page scripts read off one element: `tagName` (as the DOM
reports it: upper case for HTML elements, as-written for foreign elements such
as SVG), whether the node is an `instanceof HTMLElement`, whether `el.onclick`
is non-null, the content attributes (`getAttribute`/`hasAttribute`), the
computed `cursor` style, the bounding client rect, and throw oracles for the
DOM calls `el.click()` / `el.dispatchEvent(mouseEvent)` (the source wraps both
in `try`/`catch`, so the embedding lets either throw). `clickIsFunction` is
`typeof el.click === 'function'`. -/
structure ElemData where
  tag : String
  isHTMLElement : Bool
  onclick : Bool
  attrs : List (String × String)
  cursor : String
  rectLeft : Int
  rectTop : Int
  rectWidth : Nat
  rectHeight : Nat
  clickIsFunction : Bool
  nativeClickThrows : Bool
  syntheticDispatchThrows : Bool
deriving Repr, DecidableEq

/-- First binding of an attribute name in the attribute list. -/
def lookupAttr : List (String × String) → String → Option String
  | [], _ => none
  | kv :: rest, name => if kv.1 == name then some kv.2 else lookupAttr rest name

/-- `el.getAttribute(name)` (`none` embeds JavaScript `null`). -/
def getAttr (e : ElemData) (name : String) : Option String :=
  lookupAttr e.attrs name

/-- `el.hasAttribute(name)`. -/
def hasAttr (e : ElemData) (name : String) : Bool := (getAttr e name).isSome

mutual

inductive DomNode where
  | elem : ElemData → DomForest → DomNode
  | textNode : String → DomNode
deriving DecidableEq

inductive DomForest where
  | nil : DomForest
  | cons : DomNode → DomForest → DomForest
deriving DecidableEq

end

mutual

/-- `node.textContent`: concatenation of all descendant text nodes, in document
order (never null on an element; for a text node it is its data). -/
def textContent : DomNode → String
  | .elem _ cs => textContentList cs
  | .textNode s => s

def textContentList : DomForest → String
  | .nil => ""
  | .cons n ns => textContent n ++ textContentList ns

end

mutual

/-- Paths of all elements of the subtree, in document (pre-)order, the subtree
root first.  On the document root this is exactly the enumeration order of
`document.querySelectorAll('*')`. -/
def elemPaths : DomNode → List DPath
  | .elem _ cs => [] :: elemPathsList 0 cs
  | .textNode _ => []

def elemPathsList : Nat → DomForest → List DPath
  | _, .nil => []
  | i, .cons n ns => (elemPaths n).map (fun p => i :: p) ++ elemPathsList (i + 1) ns

end

def forestGet : DomForest → Nat → Option DomNode
  | .nil, _ => none
  | .cons n _, 0 => some n
  | .cons _ ns, i + 1 => forestGet ns i

/-- The node sitting at a path (if any). -/
def nodeAt : DomNode → DPath → Option DomNode
  | n, [] => some n
  | .elem _ cs, i :: p =>
    match forestGet cs i with
    | some c => nodeAt c p
    | none => none
  | .textNode _, _ :: _ => none

/-- The element data at a path (if the path hits an element). -/
def dataAt (root : DomNode) (p : DPath) : Option ElemData :=
  match nodeAt root p with
  | some (.elem e _) => some e
  | _ => none

/-- The immediate child nodes of the element at a path. -/
def childrenAt (root : DomNode) (p : DPath) : DomForest :=
  match nodeAt root p with
  | some (.elem _ cs) => cs
  | _ => .nil

/-- `getDepth` of the source walks `parentElement` links and counts the hops;
on a path representation that count is the path length (the document root has
no parent element and depth 0). -/
def getDepth (p : DPath) : Nat := p.length

/-- `el.querySelectorAll('*')`: all proper descendants of the element at `p`,
in document order. -/
def descendantPaths (root : DomNode) (p : DPath) : List DPath :=
  match nodeAt root p with
  | some n => ((elemPaths n).drop 1).map (fun q => p ++ q)
  | none => []

/-- The proper ancestors of a path, nearest first (`parentElement` chain). -/
def ancestorsRev : List Nat → List DPath
  | [] => []
  | _ :: rest => rest.reverse :: ancestorsRev rest

/-- Ancestor paths of `p`, nearest ancestor first, ending with `[]` (the
document root) for a non-root `p`. -/
def ancestorPaths (p : DPath) : List DPath := ancestorsRev p.reverse

/-- A document: its root element tree (`<html>`) plus the path that
`document.body` denotes. -/
structure Document where
  root : DomNode
  bodyPath : DPath

/-! ### click.ts: the in-page constants and helpers of `clickTextTool` -/

def CLICKABLE_TAGS : List String := ["a", "button", "input", "select", "textarea", "label"]

def CLICKABLE_ROLES : List String := ["button", "link", "tab", "menuitem"]

def IGNORED_TAGS : List String := ["SCRIPT", "STYLE"]

/-- `isClickable` of click.ts: inherently clickable tag, else (for HTML
elements) an attached `onclick`, a clickable ARIA role (a present, non-empty
`role` attribute — JavaScript tests `role && CLICKABLE_ROLES.includes(role)`),
a `tabindex` attribute, or a `pointer` computed cursor. -/
def isClickable (e : ElemData) : Bool :=
  if CLICKABLE_TAGS.contains (strToLower e.tag) then true
  else if e.isHTMLElement then
    if e.onclick then true
    else if (match getAttr e "role" with
             | some r => !r.isEmpty && CLICKABLE_ROLES.contains r
             | none => false) then true
    else if hasAttr e "tabindex" then true
    else if e.cursor == "pointer" then true
    else false
  else false

/-- `hasDirectTextContent`: some immediate child text node has non-empty data
containing the search text (JavaScript tests
`node.textContent && node.textContent.includes(searchText)`; the empty string
is falsy). -/
def hasDirectTextContent : DomForest → String → Bool
  | .nil, _ => false
  | .cons (.textNode s) ns, searchText =>
    (!s.isEmpty && containsStr s searchText) || hasDirectTextContent ns searchText
  | .cons (.elem _ _) ns, searchText => hasDirectTextContent ns searchText

def isClickableAt (d : Document) (q : DPath) : Bool :=
  match dataAt d.root q with
  | some e => isClickable e
  | none => false

/-- The match test of the collection loop of `clickTextTool`:
`hasDirectTextContent(element, text) || element.textContent?.trim() === text`. -/
def clickTextMatchNode (text : String) : DomNode → Bool
  | .elem _ cs =>
    hasDirectTextContent cs text || strTrim (textContentList cs) == text
  | .textNode _ => false

/-- One collected match: the element (by path) and its DOM depth. -/
structure MatchEntry where
  path : DPath
  depth : Nat
deriving Repr, DecidableEq

/-- The collection loop of `clickTextTool`: walk `document.querySelectorAll('*')`
in document order, skip `SCRIPT`/`STYLE` elements, and record every element
whose direct text contains the query or whose trimmed `textContent` equals it,
together with its depth. -/
def matchingElements (d : Document) (text : String) : List MatchEntry :=
  (elemPaths d.root).filterMap (fun p =>
    match nodeAt d.root p with
    | some n =>
      match n with
      | .elem e _ =>
        if IGNORED_TAGS.contains e.tag then none
        else if clickTextMatchNode text n then some ⟨p, getDepth p⟩
        else none
      | .textNode _ => none
    | none => none)

/-- The comparator `(a, b) => b.depth - a.depth` of
`matchingElements.sort(...)`: descending depth.  JavaScript `Array#sort` is a
stable sort, embedded by `List.mergeSort`. -/
def clickLE (a b : MatchEntry) : Bool := b.depth ≤ a.depth

/-- The sorted match list (deepest first, ties in document order). -/
def sortedMatches (d : Document) (text : String) : List MatchEntry :=
  (matchingElements d text).mergeSort clickLE

/-- The candidate that `clickTextTool` picks for a 1-based occurrence:
`matchingElements[occurrence - 1]` of the depth-sorted list, guarded by the
emptiness and range checks of the source. -/
def clickTextSelectedPath (d : Document) (text : String) (occ : Nat) : Option DPath :=
  let ms := sortedMatches d text
  if ms.length = 0 then none
  else if occ > ms.length then none
  else (ms.get? (occ - 1)).map MatchEntry.path

/-- The descendant test of `findClickableElement`:
`child.textContent && child.textContent.includes(text) && isClickable(child)`. -/
def clickableDescPred (d : Document) (text : String) (q : DPath) : Bool :=
  match nodeAt d.root q with
  | some (.elem e cs) =>
    let tc := textContentList cs
    !tc.isEmpty && containsStr tc text && isClickable e
  | _ => false

/-- The ancestor loop of `findClickableElement`: walk `parentElement` links,
stop (unsuccessfully) on `document.body` or when no parent is left, return the
first clickable ancestor strictly below `document.body`. -/
def ancestorWalkList (d : Document) : List DPath → Option DPath
  | [] => none
  | q :: qs =>
    if q == d.bodyPath then none
    else if isClickableAt d q then some q
    else ancestorWalkList d qs

/-- `findClickableElement` of click.ts: the candidate itself if clickable, else
the first clickable descendant (document order) still containing the query
text, else the first clickable ancestor strictly below `document.body`, else
the candidate itself. -/
def findClickableElement (d : Document) (text : String) (p : DPath) : DPath :=
  if isClickableAt d p then p
  else
    match (descendantPaths d.root p).find? (clickableDescPred d text) with
    | some q => q
    | none =>
      match ancestorWalkList d (ancestorPaths p) with
      | some q => q
      | none => p

/-! ### click.ts: `performClick` and the interaction fallback chain

DOM side effects are recorded as an action list.  `performClick` receives the
resolved `HTMLElement`; it first intercepts anchors (`removeAttribute('target')`
on the nearest anchor and replacement of `window.open`), then invokes
`element.click()` when that is a function, else constructs and dispatches a
bubbling, cancelable `MouseEvent('click')` at the centre of the element's
bounding client rect.  The caller of `performClick` wraps it in `try`/`catch`
and dispatches a bare bubbling `Event('click')` if it threw. -/

/-- One DOM side effect of the click path.  `centerX2`/`centerY2` of the
synthetic mouse event are twice the client coordinates
(`clientX = rect.left + rect.width / 2`), kept integral. -/
inductive ClickAction where
  | removeTargetAttr : DPath → ClickAction
  | overrideWindowOpen : ClickAction
  | nativeClick : DPath → ClickAction
  | syntheticMouseEvent : DPath → Bool → Bool → Int → Int → ClickAction
  | bareClickEvent : DPath → Bool → ClickAction
deriving Repr, DecidableEq

/-- `element.closest('a')`: the element itself or its nearest ancestor whose
tag name is an anchor (CSS tag selectors are case-insensitive in HTML
documents). -/
def closestAnchor (d : Document) (p : DPath) : Option DPath :=
  (p :: ancestorPaths p).find? (fun q =>
    match dataAt d.root q with
    | some e => strToLower e.tag == "a"
    | none => false)

/-- The anchor interception prologue of `performClick` (click.ts lines
145-166): if `element.tagName === 'A' || element.closest('a')`, take
`linkElement` accordingly, remove its `target` attribute and replace
`window.open`. -/
def anchorPrologue (d : Document) (p : DPath) (e : ElemData) : List ClickAction :=
  if e.tag == "A" || (closestAnchor d p).isSome then
    match (if e.tag == "A" then some p else closestAnchor d p) with
    | some lp => [ClickAction.removeTargetAttr lp, ClickAction.overrideWindowOpen]
    | none => []
  else []

/-- `performClick` of click.ts: the anchor prologue, then the native
`element.click()` when `typeof element.click === 'function'`, else the
synthetic `MouseEvent` dispatch.  The boolean is whether the invoked DOM call
threw (propagating out of `performClick`). -/
def performClick (d : Document) (p : DPath) (e : ElemData) : List ClickAction × Bool :=
  let pre := anchorPrologue d p e
  if e.clickIsFunction then
    (pre ++ [ClickAction.nativeClick p], e.nativeClickThrows)
  else
    (pre ++ [ClickAction.syntheticMouseEvent p true true
        (2 * e.rectLeft + (e.rectWidth : Int)) (2 * e.rectTop + (e.rectHeight : Int))],
      e.syntheticDispatchThrows)

/-- The full interaction of `clickTextTool` around `performClick`: on a throw,
the `catch` dispatches `new Event('click', { bubbles: true })` as last resort
(and the tool still reports the click as performed). -/
def clickTextInteraction (d : Document) (p : DPath) (e : ElemData) : List ClickAction :=
  let pb := performClick d p e
  if pb.2 then pb.1 ++ [ClickAction.bareClickEvent p true] else pb.1

/-- The three strategies of the interaction fallback chain. -/
inductive Strategy where
  | native
  | syntheticMouseEvents
  | bareEvent
deriving Repr, DecidableEq

/-- Which strategy (if any) an action amounts to; the anchor prologue is not a
strategy. -/
def strategyOfAction : ClickAction → Option Strategy
  | .nativeClick _ => some .native
  | .syntheticMouseEvent _ _ _ _ _ => some .syntheticMouseEvents
  | .bareClickEvent _ _ => some .bareEvent
  | .removeTargetAttr _ => none
  | .overrideWindowOpen => none

/-- The strategies actually attempted on one click, in order. -/
def attemptedStrategies (d : Document) (p : DPath) (e : ElemData) : List Strategy :=
  (clickTextInteraction d p e).filterMap strategyOfAction

/-! ### click.ts: the `clickTextTool` evaluate result and handler -/

/-- The plain-data record the injected script returns to the handler. -/
structure ClickEvalResult where
  clicked : Bool
  totalMatches : Nat
  tagName : Option String
  className : Option String
  id : Option String
deriving Repr, DecidableEq

def clickEvalFail (total : Nat) : ClickEvalResult :=
  { clicked := false, totalMatches := total, tagName := none, className := none, id := none }

/-- The in-page script of `clickTextTool`: collect matches, return failure with
`totalMatches = 0` on no match, sort by depth descending (stable), return
failure with the match count when the occurrence is out of range, else resolve
the clickable element; if it is an `HTMLElement` perform the click (the
`catch` inside makes this branch always report `clicked: true`), else return
failure with the match count.  The second component records the DOM effects
performed. -/
def clickTextEvaluate (d : Document) (text : String) (occ : Nat) :
    ClickEvalResult × List ClickAction :=
  let ms := matchingElements d text
  if ms.length = 0 then (clickEvalFail 0, [])
  else
    let sorted := ms.mergeSort clickLE
    if occ > sorted.length then (clickEvalFail sorted.length, [])
    else
      match sorted.get? (occ - 1) with
      | none => (clickEvalFail sorted.length, [])
      | some m =>
        let tp := findClickableElement d text m.path
        match dataAt d.root tp with
        | some e =>
          if e.isHTMLElement then
            ({ clicked := true, totalMatches := sorted.length, tagName := some e.tag,
               className := some ((getAttr e "class").getD ""),
               id := some ((getAttr e "id").getD "") },
              clickTextInteraction d tp e)
          else (clickEvalFail sorted.length, [])
        | none => (clickEvalFail sorted.length, [])

/-- Outcome of a tool handler: a thrown `Error` with its message, or the text
content block of a successful `CallToolResult`. -/
inductive ToolResult where
  | error : String → ToolResult
  | ok : String → ToolResult
deriving Repr, DecidableEq

/-- `No element found containing text: "<text>"`. -/
def notFoundTextMsg (text : String) : String :=
  "No element found containing text: " ++ quoteStr text

/-- `Element occurrence <occ> not found. Only <total> matches found for text:
"<text>"`. -/
def occurrenceMsg (occ total : Nat) (text : String) : String :=
  "Element occurrence " ++ toString occ ++ " not found. Only " ++ toString total ++
    " matches found for text: " ++ quoteStr text

/-- The success message of `clickTextTool`. -/
def clickedTextMsg (text : String) (occ total : Nat) (tag id cls : String) : String :=
  "Clicked element containing: " ++ quoteStr text ++ " (occurrence " ++ toString occ ++
    " of " ++ toString total ++ ")\nElement: <" ++ tag ++
    (if id.isEmpty then "" else " id=" ++ quoteStr id) ++
    (if cls.isEmpty then "" else " class=" ++ quoteStr cls) ++ ">"

/-- The `clickTextTool` handler around the in-page script: translate a failed
result into the thrown `NotFound` / occurrence error, a successful one into the
text response. -/
def clickTextHandler (d : Document) (text : String) (occ : Nat) :
    ToolResult × List ClickAction :=
  let ra := clickTextEvaluate d text occ
  let r := ra.1
  if !r.clicked then
    if r.totalMatches = 0 then (.error (notFoundTextMsg text), ra.2)
    else (.error (occurrenceMsg occ r.totalMatches text), ra.2)
  else
    (.ok (clickedTextMsg text occ r.totalMatches (r.tagName.getD "") (r.id.getD "")
      (r.className.getD "")), ra.2)

/-! ### hover.ts: `hoverTextTool`

The in-page script of `hoverTextTool` has no depth sort, no `SCRIPT`/`STYLE`
skip and a different match test: it walks `document.querySelectorAll('*')` in
document order, counts the elements whose aggregate `textContent` contains the
query (`element.textContent && element.textContent.includes(text)`), and
dispatches the hover events on the element at which the count reaches the
requested occurrence. -/

/-- The hover match test. -/
def hoverMatchNode (text : String) (n : DomNode) : Bool :=
  let tc := textContent n
  !tc.isEmpty && containsStr tc text

/-- All hover matches, in document order. -/
def hoverMatchPaths (d : Document) (text : String) : List DPath :=
  (elemPaths d.root).filter (fun p =>
    match nodeAt d.root p with
    | some n => hoverMatchNode text n
    | none => false)

/-- The counting loop of `hoverTextTool`: returns the element at which
`matchCount` reaches `occurrence`, together with that count. -/
def hoverLoop (d : Document) (text : String) (occ : Nat) :
    List DPath → Nat → Option (DPath × Nat)
  | [], _ => none
  | p :: ps, count =>
    match nodeAt d.root p with
    | some n =>
      if hoverMatchNode text n then
        if count + 1 = occ then some (p, count + 1)
        else hoverLoop d text occ ps (count + 1)
      else hoverLoop d text occ ps count
    | none => hoverLoop d text occ ps count

/-- The element `hoverTextTool` hovers for a 1-based occurrence. -/
def hoverTextSelectedPath (d : Document) (text : String) (occ : Nat) : Option DPath :=
  (hoverLoop d text occ (elemPaths d.root) 0).map (fun r => r.1)

/-- The plain-data record the injected script of `hoverTextTool` returns. -/
structure HoverEvalResult where
  hovered : Bool
  totalMatches : Nat
  tagName : Option String
  className : Option String
deriving Repr, DecidableEq

/-- The in-page script of `hoverTextTool`: on success `totalMatches` is the
running count (that is, the occurrence), on failure the script recounts all
matches with a second pass. -/
def hoverTextEvaluate (d : Document) (text : String) (occ : Nat) : HoverEvalResult :=
  match hoverLoop d text occ (elemPaths d.root) 0 with
  | some r =>
    { hovered := true, totalMatches := r.2,
      tagName := (dataAt d.root r.1).map ElemData.tag,
      className := (dataAt d.root r.1).map (fun e => (getAttr e "class").getD "") }
  | none =>
    { hovered := false, totalMatches := (hoverMatchPaths d text).length,
      tagName := none, className := none }

/-! ### The reference occurrence selection of the specification

`referenceSortedMatches` is written from the specification's words, not from
the source: take the matches of the Text Matcher (in document order, which is
how `matchingElements` produces them), and order them by DOM depth descending,
ties broken by document order.  It is implemented by insertion sort over the
position-annotated list with the total order `refLE` (depth descending, then
position ascending), to be compared against the stable JavaScript sort of the
source. -/

/-- Depth-descending, document-position-ascending total preorder on
position-annotated matches. -/
def refLE (a b : Nat × MatchEntry) : Prop :=
  b.2.depth < a.2.depth ∨ (a.2.depth = b.2.depth ∧ a.1 ≤ b.1)

instance : DecidableRel refLE := fun a b => by
  unfold refLE; exact inferInstance

instance : IsTrans (Nat × MatchEntry) refLE :=
  ⟨by intro a b c hab hbc; unfold refLE at *; omega⟩

instance : IsTotal (Nat × MatchEntry) refLE :=
  ⟨by intro a b; unfold refLE; omega⟩

/-- The reference ordering of the specification: depth descending, ties by
document order. -/
def referenceSortedMatches (ms : List MatchEntry) : List MatchEntry :=
  (List.insertionSort refLE ms.enum).map Prod.snd

/-- The element the reference implementation of the specification selects for a
1-based occurrence. -/
def referenceSelectedPath (d : Document) (text : String) (occ : Nat) : Option DPath :=
  let ms := referenceSortedMatches (matchingElements d text)
  if ms.length = 0 then none
  else if occ > ms.length then none
  else (ms.get? (occ - 1)).map MatchEntry.path

/-! ### click.ts / hover.ts: the selector retry loops

`clickSelectorTool` and `hoverSelectorTool` run an in-page loop of at most 3
attempts: query the selector; if absent, wait 1000 ms and query again; if an
element is found, apply the visibility check and either interact or return a
"found but not clickable/visible" failure at once; only after 3 fruitless
attempts return the "no element found" failure.  The page is embedded as the
sequence of `document.querySelector` results over time (`query t` is what the
`t`-th call returns), and the loop carries a trace of how many queries ran,
which waits were performed and which DOM actions were dispatched. -/

/-- What the selector flows read off the queried element.
`closestAnchorSome` is whether `element.closest('a')` finds an element. -/
structure SelElem where
  tagName : String
  className : String
  id : String
  textCont : String
  rectWidth : Nat
  rectHeight : Nat
  visibility : String
  display : String
  hasDisabled : Bool
  closestAnchorSome : Bool
deriving Repr, DecidableEq

/-- The extended check of `clickSelectorTool`: non-zero rect, `visibility` not
hidden, `display` not none, no `disabled` attribute. -/
def selClickable (e : SelElem) : Bool :=
  decide (e.rectWidth > 0) && decide (e.rectHeight > 0) &&
    e.visibility != "hidden" && e.display != "none" && !e.hasDisabled

/-- The check of `hoverSelectorTool`: non-zero rect, `visibility` not hidden,
`display` not none (no `disabled` test). -/
def selVisible (e : SelElem) : Bool :=
  decide (e.rectWidth > 0) && decide (e.rectHeight > 0) &&
    e.visibility != "hidden" && e.display != "none"

/-- DOM actions of the selector flows. -/
inductive SelAction where
  | removeTargetAttr
  | overrideWindowOpen
  | nativeClick
  | mousemove
  | mouseover
  | mouseenter
deriving Repr, DecidableEq

/-- The running trace of one selector loop. -/
structure SelTrace where
  queries : Nat
  waitsMs : List Nat
  actions : List SelAction
deriving Repr, DecidableEq

def selTrace0 : SelTrace := { queries := 0, waitsMs := [], actions := [] }

/-- The plain-data record the selector scripts return. -/
structure SelEvalResult where
  found : Bool
  attempt : Option Nat
  reason : Option String
  tagName : Option String
deriving Repr, DecidableEq

/-- `Element found but not clickable (hidden/disabled)`. -/
def notClickableMsg : String := "Element found but not clickable (hidden/disabled)"

/-- `Element found but not visible (hidden)`. -/
def notVisibleMsg : String := "Element found but not visible (hidden)"

/-- `No element found after 3 attempts: "<selector>"`. -/
def selNotFoundMsg (selector : String) : String :=
  "No element found after 3 attempts: " ++ quoteStr selector

/-- The found-element branch of `clickSelectorTool`: visibility check, then the
anchor interception (`element.tagName === 'A' || element.closest('a')`) and
`element.click()`; a hidden/disabled element returns the distinct failure at
once. -/
def clickSelCheck (e : SelElem) (attempt : Nat) (tr : SelTrace) :
    SelEvalResult × SelTrace :=
  if selClickable e then
    let pre :=
      if e.tagName == "A" || e.closestAnchorSome then
        [SelAction.removeTargetAttr, SelAction.overrideWindowOpen]
      else []
    ({ found := true, attempt := some attempt, reason := none, tagName := some e.tagName },
      { tr with actions := tr.actions ++ pre ++ [SelAction.nativeClick] })
  else
    ({ found := false, attempt := none, reason := some notClickableMsg, tagName := none }, tr)

/-- The found-element branch of `hoverSelectorTool`: hover visibility check,
then the three synthetic mouse events. -/
def hoverSelCheck (e : SelElem) (attempt : Nat) (tr : SelTrace) :
    SelEvalResult × SelTrace :=
  if selVisible e then
    ({ found := true, attempt := some attempt, reason := none, tagName := some e.tagName },
      { tr with actions := tr.actions ++
          [SelAction.mousemove, SelAction.mouseover, SelAction.mouseenter] })
  else
    ({ found := false, attempt := none, reason := some notVisibleMsg, tagName := none }, tr)

/-- The attempt loop shared by the two selector tools, parameterized by the
found-element branch.  `left` is the number of remaining attempts (3 at entry),
`attempt` the 1-based attempt counter of the source. -/
def selectorGo (query : Nat → Option SelElem) (selector : String)
    (check : SelElem → Nat → SelTrace → SelEvalResult × SelTrace) :
    Nat → Nat → SelTrace → SelEvalResult × SelTrace
  | 0, _, tr =>
    ({ found := false, attempt := none, reason := some (selNotFoundMsg selector),
       tagName := none }, tr)
  | left + 1, attempt, tr =>
    let e0 := query tr.queries
    let tr1 : SelTrace := { tr with queries := tr.queries + 1 }
    match e0 with
    | some e => check e attempt tr1
    | none =>
      let tr2 : SelTrace := { tr1 with waitsMs := tr1.waitsMs ++ [1000] }
      let e1 := query tr2.queries
      let tr3 : SelTrace := { tr2 with queries := tr2.queries + 1 }
      match e1 with
      | some e => check e attempt tr3
      | none => selectorGo query selector check left (attempt + 1) tr3

/-- The in-page loop of `clickSelectorTool`. -/
def clickSelectorEvaluate (query : Nat → Option SelElem) (selector : String) :
    SelEvalResult × SelTrace :=
  selectorGo query selector clickSelCheck 3 1 selTrace0

/-- The in-page loop of `hoverSelectorTool`. -/
def hoverSelectorEvaluate (query : Nat → Option SelElem) (selector : String) :
    SelEvalResult × SelTrace :=
  selectorGo query selector hoverSelCheck 3 1 selTrace0

/-! ### providers.ts and `processScreenshot` -/

structure ProviderConfig where
  name : String
  maxImageDimension : Nat
deriving Repr, DecidableEq

/-- `PROVIDER_CONFIGS` of providers.ts (the record embedded as an association
list; `default` kept as a separate constant, as the source reads it by key). -/
def PROVIDER_CONFIGS : List (String × ProviderConfig) :=
  [("claude", ⟨"Claude", 8000⟩),
   ("anthropic", ⟨"Anthropic", 8000⟩),
   ("gemini", ⟨"Gemini", 3072⟩),
   ("google", ⟨"Google", 3072⟩),
   ("openai", ⟨"OpenAI", 2048⟩),
   ("gpt4", ⟨"GPT-4", 2048⟩),
   ("default", ⟨"Default", 2000⟩)]

def defaultProviderConfig : ProviderConfig := ⟨"Default", 2000⟩

/-- `getProviderConfig`: default on a missing (or empty — JavaScript falsy)
provider, else normalize, direct lookup, then the fuzzy `includes` matches,
else default. -/
def getProviderConfig (provider : Option String) : ProviderConfig :=
  match provider with
  | none => defaultProviderConfig
  | some p =>
    if p.isEmpty then defaultProviderConfig
    else
      let np := strTrim (strToLower p)
      match (PROVIDER_CONFIGS.find? (fun kv => kv.1 == np)).map (fun kv => kv.2) with
      | some c => c
      | none =>
        if containsStr np "claude" || containsStr np "anthropic" then ⟨"Claude", 8000⟩
        else if containsStr np "gemini" || containsStr np "google" then ⟨"Gemini", 3072⟩
        else if containsStr np "openai" || containsStr np "gpt" then ⟨"OpenAI", 2048⟩
        else defaultProviderConfig

/-- A screenshot buffer, by its metadata. -/
structure Image where
  width : Nat
  height : Nat
deriving Repr, DecidableEq

/-- The buffer `processScreenshot` returns: either the input buffer itself,
byte for byte, or a freshly encoded PNG with the computed dimensions. -/
inductive ProcessedBuffer where
  | original : Image → ProcessedBuffer
  | resizedPng : Nat → Nat → ProcessedBuffer
deriving Repr, DecidableEq

structure ImageProcessingResult where
  processedImage : ProcessedBuffer
  originalWidth : Nat
  originalHeight : Nat
  wasResized : Bool
  providerConfig : ProviderConfig
deriving Repr, DecidableEq

/-- `Math.round (a / b)` for naturals `a`, `b > 0`, computed exactly:
`⌊a / b + 1 / 2⌋ = ⌊(2 a + b) / (2 b)⌋` (JavaScript computes the quotient in
floating point; every value exercised here is exact). -/
def jsRoundDiv (a b : Nat) : Nat := (2 * a + b) / (2 * b)

/-- `processScreenshot` of screenshotProcessor: when both dimensions are
present (non-zero — JavaScript truthiness) and one exceeds the provider's
maximum, scale the larger side to the maximum and `Math.round` the other from
the aspect ratio, re-encoding as PNG; otherwise return the input buffer
unchanged. -/
def processScreenshot (img : Image) (provider : Option String) : ImageProcessingResult :=
  let cfg := getProviderConfig provider
  let maxDim := cfg.maxImageDimension
  if img.width ≠ 0 ∧ img.height ≠ 0 ∧ (img.width > maxDim ∨ img.height > maxDim) then
    let newW := if img.width > img.height then maxDim
      else jsRoundDiv (maxDim * img.width) img.height
    let newH := if img.width > img.height then jsRoundDiv (maxDim * img.height) img.width
      else maxDim
    { processedImage := .resizedPng newW newH, originalWidth := img.width,
      originalHeight := img.height, wasResized := true, providerConfig := cfg }
  else
    { processedImage := .original img, originalWidth := img.width,
      originalHeight := img.height, wasResized := false, providerConfig := cfg }

/-! ### fill.ts: `fillFormTool`

The form state is embedded as the list of fillable elements of the document
(each addressed by the CSS selector string that finds it — the abstraction of
`document.querySelector` — with current value/checked state) plus the `<label>`
elements used by the label lookup.  `fillThrows` is the oracle for the
`try`/`catch` around one field's DOM operations. -/

structure FillInput where
  sel : String
  tagName : String
  typeAttr : Option String
  idAttr : String
  placeholder : Option String
  ariaLabel : Option String
  nameAttr : Option String
  options : List (String × String)
  value : String
  checked : Bool
  fillThrows : Bool
deriving Repr, DecidableEq

structure FillLabel where
  textCont : String
  forId : Option String
  innerInputSel : Option String
deriving Repr, DecidableEq

structure FillDoc where
  inputs : List FillInput
  labels : List FillLabel
deriving Repr, DecidableEq

/-- One entry of the `fields` array of `fillFormTool`. -/
structure FieldSpec where
  sel : String
  value : String
  useLabel : Bool
deriving Repr, DecidableEq

/-- One entry of the per-field report (`filledFields` in the source). -/
structure FieldReport where
  selector : String
  filled : Bool
  reason : Option String
  element : Option String
deriving Repr, DecidableEq

/-- `findInputByLabel`: first a matching `<label>` (trimmed lower-cased text
containing the query) resolved through its `for` attribute (JavaScript falsy:
an empty `for` is skipped) or its first inner input; then the
placeholder/aria-label/name fallback scan over all inputs. -/
def findInputByLabel (doc : FillDoc) (text : String) : Option FillInput :=
  let t := strToLower text
  let viaLabel := doc.labels.findSome? (fun lab =>
    if containsStr (strToLower (strTrim lab.textCont)) t then
      let byFor :=
        match lab.forId with
        | some fid =>
          if fid.isEmpty then none
          else doc.inputs.find? (fun i => i.idAttr == fid)
        | none => none
      match byFor with
      | some i => some i
      | none => lab.innerInputSel.bind (fun s => doc.inputs.find? (fun i => i.sel == s))
    else none)
  match viaLabel with
  | some i => some i
  | none =>
    doc.inputs.find? (fun i =>
      (match i.placeholder with
       | some p => !p.isEmpty && containsStr (strToLower p) t
       | none => false) ||
      (match i.ariaLabel with
       | some a => !a.isEmpty && containsStr (strToLower a) t
       | none => false) ||
      (match i.nameAttr with
       | some nm => !nm.isEmpty && containsStr (strToLower nm) t
       | none => false))

/-- `input.getAttribute('type') || 'text'` (empty string is falsy). -/
def effType (i : FillInput) : String :=
  match i.typeAttr with
  | some t => if t.isEmpty then "text" else t
  | none => "text"

/-- Replace the state of the input addressed by `sel`. -/
def updateInput (doc : FillDoc) (sel : String) (f : FillInput → FillInput) : FillDoc :=
  { doc with inputs := doc.inputs.map (fun i => if i.sel == sel then f i else i) }

/-- The element summary string of a successful field report. -/
def fieldElementStr (i : FillInput) : String :=
  "<" ++ strToLower i.tagName ++ " type=" ++ quoteStr (effType i) ++
    (if i.idAttr.isEmpty then "" else " id=" ++ quoteStr i.idAttr) ++ ">"

/-- Which selector lookup `fillFormTool` uses for one field. -/
def lookupField (doc : FillDoc) (f : FieldSpec) : Option FillInput :=
  if f.useLabel then findInputByLabel doc f.sel
  else doc.inputs.find? (fun i => i.sel == f.sel)

/-- Process one field of `fillFormTool`: lookup, then the select / checkable /
text branches, each recording a per-field report; a missing input, a missing
select option or a thrown DOM operation produce a failure report and leave the
loop running.  (The throw oracle fires before the mutations, so a throwing
field leaves the state unchanged.) -/
def fillField (doc : FillDoc) (f : FieldSpec) : FillDoc × FieldReport :=
  match lookupField doc f with
  | none =>
    (doc, { selector := f.sel, filled := false,
            reason := some ("No input found for: " ++ quoteStr f.sel), element := none })
  | some i =>
    let tagName := strToLower i.tagName
    let ty := effType i
    if i.fillThrows then
      (doc, { selector := f.sel, filled := false,
              reason := some "Error filling field: Error", element := none })
    else if tagName == "select" then
      match i.options.find? (fun opt => opt.1 == f.value || opt.2 == f.value) with
      | some opt =>
        (updateInput doc i.sel (fun j => { j with value := opt.1 }),
          { selector := f.sel, filled := true, reason := none,
            element := some (fieldElementStr i) })
      | none =>
        (doc, { selector := f.sel, filled := false,
                reason := some ("Option " ++ quoteStr f.value ++ " not found in select"),
                element := none })
    else if ty == "checkbox" || ty == "radio" then
      let newChecked :=
        if strToLower f.value == "true" || f.value == "1" then true
        else if strToLower f.value == "false" || f.value == "0" then false
        else i.checked
      (updateInput doc i.sel (fun j => { j with checked := newChecked }),
        { selector := f.sel, filled := true, reason := none,
          element := some (fieldElementStr i) })
    else
      (updateInput doc i.sel (fun j => { j with value := f.value }),
        { selector := f.sel, filled := true, reason := none,
          element := some (fieldElementStr i) })

/-- The field loop of `fillFormTool`: every field is attempted, in order. -/
def fillFormLoop (doc : FillDoc) : List FieldSpec → FillDoc × List FieldReport
  | [] => (doc, [])
  | f :: fs =>
    let dr := fillField doc f
    let rest := fillFormLoop dr.1 fs
    (rest.1, dr.2 :: rest.2)

/-- The summary line of the handler response. -/
def fillFormSummary (reports : List FieldReport) : String :=
  "Filled " ++ toString (reports.filter (fun r => r.filled)).length ++ " out of " ++
    toString reports.length ++ " fields"

/-- The `fillFormTool` handler: runs the loop and always resolves with the
per-field report (per-field failures are recorded, not thrown). -/
def fillFormHandler (doc : FillDoc) (fields : List FieldSpec) :
    ToolResult × FillDoc × List FieldReport :=
  let dr := fillFormLoop doc fields
  (.ok (fillFormSummary dr.2), dr.1, dr.2)

/-! ### Browser-side interpretation of the click actions

To state what the anchor interception achieves, the recorded click actions are
interpreted over a page state: the document, the current location, whether
`window.open` has been replaced, and how many secondary browsing contexts have
been opened.  The anchor default action (`anchorActivate`) models the embedded
browser: a dispatched click on or inside an anchor with an `href` navigates —
into a new browsing context when a non-self `target` attribute is present,
into the current page otherwise. -/

/-- Drop every binding of the `target` attribute from an attribute list. -/
def dropTargetAttr : List (String × String) → List (String × String)
  | [] => []
  | kv :: rest =>
    if kv.1 == "target" then dropTargetAttr rest else kv :: dropTargetAttr rest

/-- Drop the `target` attribute (`linkElement.removeAttribute('target')`). -/
def removeTargetData (e : ElemData) : ElemData :=
  { e with attrs := dropTargetAttr e.attrs }

mutual

/-- Rewrite the element at a path with `f`. -/
def updateNode : DomNode → DPath → (ElemData → ElemData) → DomNode
  | .elem e cs, [], f => .elem (f e) cs
  | .elem e cs, i :: p, f => .elem e (updateForest cs i p f)
  | .textNode s, _, _ => .textNode s

def updateForest : DomForest → Nat → DPath → (ElemData → ElemData) → DomForest
  | .nil, _, _, _ => .nil
  | .cons c cs, 0, p, f => .cons (updateNode c p f) cs
  | .cons c cs, i + 1, p, f => .cons c (updateForest cs i p f)

end

/-- The browser page state the click actions act on. -/
structure PageState where
  doc : Document
  locationHref : String
  windowOpenOverridden : Bool
  openedContexts : Nat

/-- The replacement installed over `window.open`: it assigns
`window.location.href` and returns `null` — it never opens a browsing
context.  The second component is the returned `Window` handle (always
`none`). -/
def overriddenWindowOpen (st : PageState) (url : Option String) :
    PageState × Option Unit :=
  match url with
  | some u => ({ st with locationHref := u }, none)
  | none => (st, none)

/-- The anchor default action on a click event reaching the element at `p`. -/
def anchorActivate (st : PageState) (p : DPath) : PageState :=
  match closestAnchor st.doc p with
  | some ap =>
    match dataAt st.doc.root ap with
    | some a =>
      match getAttr a "href" with
      | some href =>
        match getAttr a "target" with
        | some tgt =>
          if tgt != "_self" && !tgt.isEmpty then
            { st with openedContexts := st.openedContexts + 1 }
          else { st with locationHref := href }
        | none => { st with locationHref := href }
      | none => st
    | none => st
  | none => st

/-- Interpret one recorded click action on the page state. -/
def stepClickAction (st : PageState) (a : ClickAction) : PageState :=
  match a with
  | .removeTargetAttr lp =>
    { st with doc := { root := updateNode st.doc.root lp removeTargetData,
                       bodyPath := st.doc.bodyPath } }
  | .overrideWindowOpen => { st with windowOpenOverridden := true }
  | .nativeClick p => anchorActivate st p
  | .syntheticMouseEvent p _ _ _ _ => anchorActivate st p
  | .bareClickEvent p _ => anchorActivate st p

/-- Interpret a list of recorded click actions, left to right. -/
def runClickActions (st : PageState) : List ClickAction → PageState
  | [] => st
  | a :: rest => runClickActions (stepClickAction st a) rest

/-! ### Concrete test documents -/

/-- A plain HTML element: no handlers, no attributes, default cursor, a
non-degenerate rect, a callable non-throwing `click`. -/
def plainElem (tag : String) : ElemData :=
  { tag := tag, isHTMLElement := true, onclick := false, attrs := [], cursor := "auto",
    rectLeft := 0, rectTop := 0, rectWidth := 100, rectHeight := 20,
    clickIsFunction := true, nativeClickThrows := false, syntheticDispatchThrows := false }

/-- `<html><body><div><span>Buy</span></div></body></html>`, everything plain. -/
def dBuy : Document :=
  { root := .elem (plainElem "HTML")
      (.cons (.elem (plainElem "BODY")
        (.cons (.elem (plainElem "DIV")
          (.cons (.elem (plainElem "SPAN")
            (.cons (.textNode "Buy") .nil)) .nil)) .nil)) .nil),
    bodyPath := [0] }

/-- Same shape, but the `<div>` carries `role="button"` (interactive by role):
the structure of the specification's ancestor-resolution example. -/
def dDivRole : Document :=
  { root := .elem (plainElem "HTML")
      (.cons (.elem (plainElem "BODY")
        (.cons (.elem { plainElem "DIV" with attrs := [("role", "button")] }
          (.cons (.elem (plainElem "SPAN")
            (.cons (.textNode "Buy") .nil)) .nil)) .nil)) .nil),
    bodyPath := [0] }

/-- Same shape, but the `<body>` has an `onclick` handler and nothing below it
is clickable: the only interactable ancestor of the span is the body. -/
def dBodyClick : Document :=
  { root := .elem (plainElem "HTML")
      (.cons (.elem { plainElem "BODY" with onclick := true }
        (.cons (.elem (plainElem "DIV")
          (.cons (.elem (plainElem "SPAN")
            (.cons (.textNode "Buy") .nil)) .nil)) .nil)) .nil),
    bodyPath := [0] }

/-- `<html><body></body></html>`: no text at all. -/
def dEmpty : Document :=
  { root := .elem (plainElem "HTML")
      (.cons (.elem (plainElem "BODY") .nil) .nil),
    bodyPath := [0] }

/-- An SVG `<a>` element: its tag name is reported in lower case and it is not
an `instanceof HTMLElement`. -/
def svgAnchorElem : ElemData :=
  { plainElem "a" with tag := "a", isHTMLElement := false }

/-- `<html><body><svg:a>Go</svg:a></body></html>`: the match resolves to a
clickable element (tag `a`) that is not an HTMLElement. -/
def dSvg : Document :=
  { root := .elem (plainElem "HTML")
      (.cons (.elem (plainElem "BODY")
        (.cons (.elem svgAnchorElem
          (.cons (.textNode "Go") .nil)) .nil)) .nil),
    bodyPath := [0] }

/-- A button whose native `click()` throws. -/
def throwingButton : ElemData :=
  { plainElem "BUTTON" with nativeClickThrows := true }

/-- `<html><body><button>Go</button></body></html>` with a throwing native
click. -/
def dThrow : Document :=
  { root := .elem (plainElem "HTML")
      (.cons (.elem (plainElem "BODY")
        (.cons (.elem throwingButton
          (.cons (.textNode "Go") .nil)) .nil)) .nil),
    bodyPath := [0] }

/-- `<a href="https://example.com/page2" target="_blank">Link</a>`. -/
def blankAnchorElem : ElemData :=
  { plainElem "A" with
    attrs := [("href", "https://example.com/page2"), ("target", "_blank")] }

/-- `<html><body><a href=... target="_blank">Link</a></body></html>`. -/
def dAnchor : Document :=
  { root := .elem (plainElem "HTML")
      (.cons (.elem (plainElem "BODY")
        (.cons (.elem blankAnchorElem
          (.cons (.textNode "Link") .nil)) .nil)) .nil),
    bodyPath := [0] }

/-- A visible but `disabled` selector target (for the retry-loop claims). -/
def disabledSelElem : SelElem :=
  { tagName := "BUTTON", className := "", id := "submit", textCont := "Send",
    rectWidth := 120, rectHeight := 32, visibility := "visible", display := "block",
    hasDisabled := true, closestAnchorSome := false }

/-- A `display:none` selector target. -/
def hiddenSelElem : SelElem :=
  { tagName := "DIV", className := "modal", id := "m", textCont := "",
    rectWidth := 0, rectHeight := 0, visibility := "visible", display := "none",
    hasDisabled := false, closestAnchorSome := false }

/-- A page on which the selector never matches. -/
def emptySelPage : Nat → Option SelElem := fun _ => none

/-- A page on which every query returns the disabled element. -/
def disabledSelPage : Nat → Option SelElem := fun _ => some disabledSelElem

/-- A page on which every query returns the hidden element. -/
def hiddenSelPage : Nat → Option SelElem := fun _ => some hiddenSelElem

/-- The failure report `fillFormTool` records for a field whose input cannot
be found. -/
def notFoundFieldReport (f : FieldSpec) : FieldReport :=
  { selector := f.sel, filled := false,
    reason := some ("No input found for: " ++ quoteStr f.sel), element := none }

/-- A small form document: a text input, a select, and a checkbox. -/
def dForm : FillDoc :=
  { inputs :=
      [{ sel := "#email", tagName := "INPUT", typeAttr := some "text", idAttr := "email",
         placeholder := some "Email address", ariaLabel := none, nameAttr := some "email",
         options := [], value := "", checked := false, fillThrows := false },
       { sel := "#country", tagName := "SELECT", typeAttr := none, idAttr := "country",
         placeholder := none, ariaLabel := none, nameAttr := some "country",
         options := [("us", "United States"), ("fr", "France")], value := "us",
         checked := false, fillThrows := false },
       { sel := "#optin", tagName := "INPUT", typeAttr := some "checkbox", idAttr := "optin",
         placeholder := none, ariaLabel := some "Subscribe", nameAttr := none,
         options := [], value := "", checked := false, fillThrows := false }],
    labels :=
      [{ textCont := " Email ", forId := some "email", innerInputSel := none }] }

/-! ### Specification-side reference definitions used in theorem statements -/

/-- The ancestor stage as the claim words it: the first interactable proper
ancestor walking upward, excluding (only) the document root.  Written from the
claim, to be compared with the source's walk (which also excludes
`document.body` and everything above it). -/
def claimAncestorStage (d : Document) (p : DPath) : Option DPath :=
  (ancestorPaths p).find? (fun q => !(q == ([] : DPath)) && isClickableAt d q)

/-- The resolution algorithm as the (amended) specification words it: the
candidate itself if interactable; else the first descendant in document order
that still contains the query text and is interactable; else the first
interactable ancestor strictly below `document.body`; else the candidate.
Written with list combinators, to be compared against the loops of
`findClickableElement`. -/
def resolveInteractiveSpec (d : Document) (text : String) (p : DPath) : DPath :=
  if isClickableAt d p then p
  else
    match (descendantPaths d.root p).filter (clickableDescPred d text) with
    | q :: _ => q
    | [] =>
      match ((ancestorPaths p).takeWhile (fun q => !(q == d.bodyPath))).find?
          (fun q => isClickableAt d q) with
      | some q => q
      | none => p

/-- Width of the buffer `processScreenshot` returned. -/
def bufferWidth : ProcessedBuffer → Nat
  | .original i => i.width
  | .resizedPng w _ => w

/-- Height of the buffer `processScreenshot` returned. -/
def bufferHeight : ProcessedBuffer → Nat
  | .original i => i.height
  | .resizedPng _ h => h

/-- The failure report `fillFormTool` records for a field whose DOM fill
operations threw. -/
def throwFieldReport (f : FieldSpec) : FieldReport :=
  { selector := f.sel, filled := false,
    reason := some "Error filling field: Error", element := none }

/-! ### Helper lemmas: the stable depth sort equals the reference order -/

theorem clickLE_trans : ∀ a b c : MatchEntry, clickLE a b → clickLE b c → clickLE a c := by
  intro a b c hab hbc
  simp only [clickLE, decide_eq_true_eq] at *
  omega

theorem clickLE_total : ∀ a b : MatchEntry, clickLE a b || clickLE b a := by
  intro a b
  simp only [clickLE, Bool.or_eq_true, decide_eq_true_eq]
  omega

theorem enumLE_clickLE_iff (x y : Nat × MatchEntry) :
    List.enumLE clickLE x y = true ↔ refLE x y := by
  simp only [List.enumLE, clickLE, refLE]
  by_cases h1 : y.2.depth ≤ x.2.depth <;> by_cases h2 : x.2.depth ≤ y.2.depth <;>
    simp [h1, h2] <;> omega

theorem refLE_fst_eq {x y : Nat × MatchEntry} (h1 : refLE x y) (h2 : refLE y x) :
    x.1 = y.1 := by
  simp only [refLE] at *
  omega

/-- Two sorted permutations of a list with pairwise-distinct positions agree:
the uniqueness of a stable sort result. -/
theorem eq_of_perm_of_pairwise_refLE :
    ∀ {l₁ l₂ : List (Nat × MatchEntry)}, l₁.Perm l₂ →
      l₁.Pairwise refLE → l₂.Pairwise refLE → (l₁.map Prod.fst).Nodup → l₁ = l₂ := by
  intro l₁
  induction l₁ with
  | nil =>
    intro l₂ hp _ _ _
    exact hp.nil_eq
  | cons a t₁ ih =>
    intro l₂ hp hs₁ hs₂ hnd
    cases l₂ with
    | nil =>
      exact absurd hp.symm.nil_eq (by simp)
    | cons b t₂ =>
      have hab : a = b := by
        by_contra hne
        have hat₂ : a ∈ t₂ := by
          have : a ∈ b :: t₂ := hp.subset (List.mem_cons_self a t₁)
          exact (List.mem_cons.mp this).resolve_left hne
        have hbt₁ : b ∈ t₁ := by
          have : b ∈ a :: t₁ := hp.symm.subset (List.mem_cons_self b t₂)
          exact (List.mem_cons.mp this).resolve_left (fun h => hne h.symm)
        have r1 : refLE a b := List.rel_of_pairwise_cons hs₁ hbt₁
        have r2 : refLE b a := List.rel_of_pairwise_cons hs₂ hat₂
        have hfst : a.1 = b.1 := refLE_fst_eq r1 r2
        have : a.1 ∉ t₁.map Prod.fst := (List.nodup_cons.mp (by simpa using hnd)).1
        exact this (hfst ▸ List.mem_map_of_mem Prod.fst hbt₁)
      subst hab
      have : t₁ = t₂ :=
        ih hp.cons_inv hs₁.of_cons hs₂.of_cons (List.nodup_cons.mp (by simpa using hnd)).2
      rw [this]

/-- The stable JavaScript sort of the source (descending depth over the
document-order match list) produces exactly the reference ordering of the
specification (depth descending, ties by document order). -/
theorem mergeSort_clickLE_eq_reference (ms : List MatchEntry) :
    ms.mergeSort clickLE = referenceSortedMatches ms := by
  have h1 : (List.mergeSort ms.enum (List.enumLE clickLE)).map Prod.snd =
      ms.mergeSort clickLE := List.mergeSort_enum
  have hs1 : (List.mergeSort ms.enum (List.enumLE clickLE)).Pairwise refLE := by
    have hb := List.sorted_mergeSort
      (List.enumLE_trans clickLE_trans) (List.enumLE_total clickLE_total) ms.enum
    exact hb.imp (fun h => (enumLE_clickLE_iff _ _).mp h)
  have hs2 : (List.insertionSort refLE ms.enum).Pairwise refLE :=
    List.sorted_insertionSort refLE ms.enum
  have hperm : (List.mergeSort ms.enum (List.enumLE clickLE)).Perm
      (List.insertionSort refLE ms.enum) :=
    (List.mergeSort_perm ms.enum _).trans (List.perm_insertionSort refLE ms.enum).symm
  have hnd : ((List.mergeSort ms.enum (List.enumLE clickLE)).map Prod.fst).Nodup := by
    have hpm : ((List.mergeSort ms.enum (List.enumLE clickLE)).map Prod.fst).Perm
        (ms.enum.map Prod.fst) := (List.mergeSort_perm ms.enum _).map Prod.fst
    exact hpm.nodup_iff.mpr (List.nodup_enum_map_fst ms)
  have heq := eq_of_perm_of_pairwise_refLE hperm hs1 hs2 hnd
  rw [← h1, heq, referenceSortedMatches]

/-- The occurrence selection of `clickTextTool` refines the reference
selection of the specification, for every document, query text and occurrence
index. -/
theorem clickTextSelectedPath_eq_reference (d : Document) (text : String) (occ : Nat) :
    clickTextSelectedPath d text occ = referenceSelectedPath d text occ := by
  simp only [clickTextSelectedPath, referenceSelectedPath, sortedMatches,
    mergeSort_clickLE_eq_reference]

/-! ### Helper lemmas: the hover counting loop -/

theorem hoverLoop_get (d : Document) (text : String) (occ : Nat) :
    ∀ (ps : List DPath) (count : Nat), count < occ →
      (hoverLoop d text occ ps count).map (fun r => r.1) =
        (ps.filter (fun p =>
          match nodeAt d.root p with
          | some n => hoverMatchNode text n
          | none => false)).get? (occ - count - 1) := by
  intro ps
  induction ps with
  | nil => intro count h; simp [hoverLoop]
  | cons p ps ih =>
    intro count h
    cases hn : nodeAt d.root p with
    | none =>
      rw [show hoverLoop d text occ (p :: ps) count = hoverLoop d text occ ps count from by
        simp [hoverLoop, hn]]
      rw [ih count h]
      congr 1
      simp [List.filter_cons, hn]
    | some n =>
      by_cases hm : hoverMatchNode text n = true
      · by_cases he : count + 1 = occ
        · rw [show hoverLoop d text occ (p :: ps) count = some (p, count + 1) from by
            simp [hoverLoop, hn, hm, he]]
          have h0 : occ - count - 1 = 0 := by omega
          simp [List.filter_cons, hn, hm, h0, List.get?]
        · rw [show hoverLoop d text occ (p :: ps) count =
              hoverLoop d text occ ps (count + 1) from by
            simp [hoverLoop, hn, hm, he]]
          rw [ih (count + 1) (by omega)]
          have h1 : occ - count - 1 = (occ - (count + 1) - 1) + 1 := by omega
          simp [List.filter_cons, hn, hm, h1, List.get?]
      · rw [show hoverLoop d text occ (p :: ps) count = hoverLoop d text occ ps count from by
          simp [hoverLoop, hn, hm]]
        rw [ih count h]
        congr 1
        simp [List.filter_cons, hn, hm]

/-- `hoverTextTool` resolves occurrence `k ≥ 1` to the `k`-th element in
document order whose aggregate `textContent` contains the query. -/
theorem hoverTextSelectedPath_eq_docOrder (d : Document) (text : String) (occ : Nat)
    (h : 1 ≤ occ) :
    hoverTextSelectedPath d text occ = (hoverMatchPaths d text).get? (occ - 1) := by
  have hg := hoverLoop_get d text occ (elemPaths d.root) 0 (by omega)
  simpa [hoverTextSelectedPath, hoverMatchPaths] using hg

/-! ### C1 -/

/-- C1 counterexample: in the fixed DOM
`<html><body><div><span>Buy</span></div></body></html>`, the reference
depth-sort implementation (and `clickText`) resolves occurrence 1 of "Buy" to
the `<span>` at path `[0, 0, 0]`, but `hoverText` resolves it to the `<html>`
element at path `[]` (the first element in document order whose `textContent`
contains "Buy"), so the two text tools do not agree with the reference. -/
theorem hoverText_diverges_from_reference :
    hoverTextSelectedPath dBuy "Buy" 1 = some [] ∧
    referenceSelectedPath dBuy "Buy" 1 = some [0, 0, 0] ∧
    clickTextSelectedPath dBuy "Buy" 1 = some [0, 0, 0] ∧
    hoverTextSelectedPath dBuy "Buy" 1 ≠ referenceSelectedPath dBuy "Buy" 1 :=
  ⟨by decide, by decide,
   by rw [clickTextSelectedPath_eq_reference]; decide, by decide⟩

/-- C1 (amended): for every document, text query and occurrence, `clickText`
resolves the occurrence to the element chosen by the reference implementation
that sorts matches by DOM depth descending with ties in document order; but
`hoverText` instead resolves occurrence `k ≥ 1` to the `k`-th element in plain
document order whose aggregate `textContent` contains the query (no depth
sort, and a different match predicate). -/
theorem textTools_occurrence_resolution :
    (∀ (d : Document) (text : String) (occ : Nat),
      clickTextSelectedPath d text occ = referenceSelectedPath d text occ) ∧
    (∀ (d : Document) (text : String) (occ : Nat), 1 ≤ occ →
      hoverTextSelectedPath d text occ = (hoverMatchPaths d text).get? (occ - 1)) :=
  ⟨clickTextSelectedPath_eq_reference, hoverTextSelectedPath_eq_docOrder⟩

/-- C1 witness: the amended theorem instantiated on the concrete document. -/
theorem textTools_occurrence_resolution_witness :
    clickTextSelectedPath dBuy "Buy" 2 = referenceSelectedPath dBuy "Buy" 2 ∧
    hoverTextSelectedPath dBuy "Buy" 2 = (hoverMatchPaths dBuy "Buy").get? 1 :=
  ⟨textTools_occurrence_resolution.1 dBuy "Buy" 2,
   textTools_occurrence_resolution.2 dBuy "Buy" 2 (by decide)⟩

/-! ### C2 -/

/-- C2 (amended): for a query with `N ≥ 1` matches, any occurrence above `N`
makes `clickText` throw the out-of-range error whose message reports exactly
`N` matches, and no click is performed (the branch with `N = 0` throws the
NotFound error instead, see C3). -/
theorem clickText_out_of_range (d : Document) (text : String) (occ : Nat)
    (hN : 1 ≤ (matchingElements d text).length)
    (hocc : (matchingElements d text).length < occ) :
    clickTextHandler d text occ =
      (.error (occurrenceMsg occ (matchingElements d text).length text), []) := by
  have h0 : ¬ (matchingElements d text).length = 0 := by omega
  simp [clickTextHandler, clickTextEvaluate, h0, hocc, clickEvalFail]

/-- C2 witness. -/
theorem clickText_out_of_range_witness :
    1 ≤ (matchingElements dBuy "Buy").length ∧
    (matchingElements dBuy "Buy").length < 5 ∧
    clickTextHandler dBuy "Buy" 5 =
      (.error (occurrenceMsg 5 (matchingElements dBuy "Buy").length "Buy"), []) :=
  ⟨by decide, by decide, clickText_out_of_range dBuy "Buy" 5 (by decide) (by decide)⟩

/-- C2 counterexample: with zero matches, requesting occurrence `N + 1 = 1`
throws the NotFound error, not an OutOfRange error reporting 0 matches. -/
theorem clickText_occurrence_on_empty_counterexample :
    (matchingElements dEmpty "Buy").length = 0 ∧
    clickTextHandler dEmpty "Buy" 1 = (.error (notFoundTextMsg "Buy"), []) ∧
    notFoundTextMsg "Buy" ≠ occurrenceMsg 1 0 "Buy" :=
  ⟨by decide, by decide, by decide⟩

/-! ### C3 -/

/-- C3: with zero matches, `clickText` throws the NotFound error for any
requested occurrence, performs no click, and the message echoes the query
verbatim. -/
theorem clickText_zero_matches_notfound (d : Document) (text : String) (occ : Nat)
    (h : (matchingElements d text).length = 0) :
    clickTextHandler d text occ = (.error (notFoundTextMsg text), []) ∧
    ∃ pre post, notFoundTextMsg text = pre ++ text ++ post := by
  constructor
  · simp [clickTextHandler, clickTextEvaluate, h, clickEvalFail]
  · refine ⟨"No element found containing text: \"", "\"", ?_⟩
    apply String.ext
    simp [notFoundTextMsg, quoteStr]

/-- C3 witness. -/
theorem clickText_zero_matches_notfound_witness :
    (matchingElements dEmpty "Zed").length = 0 ∧
    (clickTextHandler dEmpty "Zed" 3 = (.error (notFoundTextMsg "Zed"), []) ∧
      ∃ pre post, notFoundTextMsg "Zed" = pre ++ "Zed" ++ post) :=
  ⟨by decide, clickText_zero_matches_notfound dEmpty "Zed" 3 (by decide)⟩

/-! ### Helper lemmas: loops versus list combinators -/

theorem find_eq_head_filter {α : Type} (f : α → Bool) :
    ∀ l : List α, l.find? f = (l.filter f).head? := by
  intro l
  induction l with
  | nil => simp
  | cons a l ih =>
    by_cases h : f a = true
    · rw [List.find?_cons_of_pos _ h, List.filter_cons_of_pos h]
      rfl
    · rw [List.find?_cons_of_neg _ h, List.filter_cons_of_neg h, ih]

theorem ancestorWalk_eq_takeWhile (d : Document) :
    ∀ qs : List DPath,
      ancestorWalkList d qs =
        (qs.takeWhile (fun q => !(q == d.bodyPath))).find? (fun q => isClickableAt d q) := by
  intro qs
  induction qs with
  | nil => simp [ancestorWalkList]
  | cons q qs ih =>
    by_cases hb : (q == d.bodyPath) = true
    · simp [ancestorWalkList, hb, List.takeWhile_cons]
    · by_cases hc : isClickableAt d q
      · simp [ancestorWalkList, hb, hc, List.takeWhile_cons, List.find?_cons]
      · simp [ancestorWalkList, hb, hc, List.takeWhile_cons, List.find?_cons, ih]

/-- The loops of `findClickableElement` compute the staged resolution of the
(amended) specification. -/
theorem findClickable_eq_spec (d : Document) (text : String) (p : DPath) :
    findClickableElement d text p = resolveInteractiveSpec d text p := by
  unfold findClickableElement resolveInteractiveSpec
  by_cases h1 : isClickableAt d p
  · simp [h1]
  · simp only [h1]
    rw [find_eq_head_filter, ancestorWalk_eq_takeWhile]
    cases (descendantPaths d.root p).filter (clickableDescPred d text) with
    | nil => simp
    | cons q qs => simp

/-! ### C4 -/

/-- C4 counterexample: in `<html><body onclick><div><span>Buy</span></div></body></html>`
the span candidate is not interactable, has no interactable descendant, and its
first interactable ancestor that is not the document root is the body; the
claimed stage 3 would therefore resolve to the body, but the source walk
excludes `document.body` (not only the root) and falls back to the span
itself. -/
theorem ancestor_stage_excludes_body_counterexample :
    isClickableAt dBodyClick [0, 0, 0] = false ∧
    (descendantPaths dBodyClick.root [0, 0, 0]).find? (clickableDescPred dBodyClick "Buy")
      = none ∧
    claimAncestorStage dBodyClick [0, 0, 0] = some [0] ∧
    findClickableElement dBodyClick "Buy" [0, 0, 0] = [0, 0, 0] ∧
    [0] ≠ ([0, 0, 0] : DPath) :=
  ⟨by decide, by decide, by decide, by decide, by decide⟩

/-- C4 (amended): the clickable-element resolution follows the four stages in
order — (1) the candidate itself if interactable; (2) else the first
interactable descendant in document order still containing the query; (3) else
the first interactable ancestor walking upward, where the walk excludes
`document.body` and everything at or above it (not merely the document root);
(4) else the original candidate — and on `<div role="button"><span>Buy</span></div>`
resolving "Buy" returns the div, not the span. -/
theorem clickable_resolution_stages :
    (∀ (d : Document) (text : String) (p : DPath),
      findClickableElement d text p = resolveInteractiveSpec d text p) ∧
    clickTextSelectedPath dDivRole "Buy" 1 = some [0, 0, 0] ∧
    findClickableElement dDivRole "Buy" [0, 0, 0] = [0, 0] ∧
    (clickTextEvaluate dDivRole "Buy" 1).1.clicked = true ∧
    (clickTextEvaluate dDivRole "Buy" 1).1.tagName = some "DIV" := by
  refine ⟨findClickable_eq_spec, ?_, by decide, ?_, ?_⟩
  · rw [clickTextSelectedPath_eq_reference]; decide
  · simp only [clickTextEvaluate, mergeSort_clickLE_eq_reference]; decide
  · simp only [clickTextEvaluate, mergeSort_clickLE_eq_reference]; decide

/-! ### C5 -/

/-- The anchor interception prologue contributes no interaction strategy. -/
theorem anchorPrologue_no_strategy (d : Document) (p : DPath) (e : ElemData) :
    (anchorPrologue d p e).filterMap strategyOfAction = [] := by
  unfold anchorPrologue
  by_cases h : (e.tag == "A" || (closestAnchor d p).isSome) = true
  · simp only [h, if_true]
    cases (if e.tag == "A" then some p else closestAnchor d p) <;>
      simp [strategyOfAction]
  · simp [h]

/-- C5 counterexample: on a button whose `click` is a function but throws, the
native stage is attempted and throws, yet SyntheticPointerEvents is skipped —
the bare event is dispatched directly — refuting "each later stage is attempted
if and only if the prior stage throws". -/
theorem strategy_chain_counterexample :
    throwingButton.clickIsFunction = true ∧
    throwingButton.nativeClickThrows = true ∧
    attemptedStrategies dThrow [0, 0] throwingButton =
      [Strategy.native, Strategy.bareEvent] ∧
    Strategy.syntheticMouseEvents ∉ attemptedStrategies dThrow [0, 0] throwingButton :=
  ⟨rfl, rfl, by decide, by decide⟩

/-- C5 (amended): native click is attempted iff `element.click` is a function;
the synthetic bubbling, cancelable mouse event at the rect centre is attempted
iff it is not (never because the native click threw); the bare event is
attempted iff whichever stage ran threw; and the bare stage never throws — once
an HTMLElement target is resolved, the in-page script always reports the click
as performed. -/
theorem click_strategy_chain (d : Document) (p : DPath) (e : ElemData) :
    attemptedStrategies d p e =
      (if e.clickIsFunction then [Strategy.native] else [Strategy.syntheticMouseEvents]) ++
      (if (performClick d p e).2 then [Strategy.bareEvent] else []) ∧
    ((performClick d p e).2 =
      if e.clickIsFunction then e.nativeClickThrows else e.syntheticDispatchThrows) ∧
    (e.clickIsFunction = false →
      ClickAction.syntheticMouseEvent p true true (2 * e.rectLeft + (e.rectWidth : Int))
        (2 * e.rectTop + (e.rectHeight : Int)) ∈ clickTextInteraction d p e) ∧
    (∀ (text : String) (occ : Nat) (m : MatchEntry),
      ¬(matchingElements d text).length = 0 →
      ¬occ > (sortedMatches d text).length →
      (sortedMatches d text).get? (occ - 1) = some m →
      dataAt d.root (findClickableElement d text m.path) = some e →
      e.isHTMLElement = true →
      (clickTextEvaluate d text occ).1.clicked = true) := by
  refine ⟨?_, ?_, ?_, ?_⟩
  · cases hf : e.clickIsFunction <;>
      cases ht : (performClick d p e).2 <;>
      simp_all [attemptedStrategies, clickTextInteraction, performClick,
        List.filterMap_append, anchorPrologue_no_strategy, strategyOfAction]
  · cases hf : e.clickIsFunction <;> simp [performClick, hf]
  · intro hf
    cases ht : e.syntheticDispatchThrows <;>
      simp [clickTextInteraction, performClick, hf, ht]
  · intro text occ m h1 h2 h3 h4 h5
    simp only [sortedMatches] at h2 h3
    rw [List.get?_eq_getElem?] at h3
    have h2' : ¬ (matchingElements d text).length < occ := by
      simpa [List.length_mergeSort] using h2
    simp [clickTextEvaluate, h1, h2', h3, h4, h5]

/-- C5 witness: the amended theorem instantiated on the throwing button. -/
theorem click_strategy_chain_witness :
    attemptedStrategies dThrow [0, 0] throwingButton =
      [Strategy.native] ++ [Strategy.bareEvent] ∧
    (clickTextEvaluate dThrow "Go" 1).1.clicked = true := by
  have h := click_strategy_chain dThrow [0, 0] throwingButton
  refine ⟨?_, ?_⟩
  · have h1 := h.1
    simpa using h1
  · refine h.2.2.2 "Go" 1 ⟨[0, 0], 2⟩ (by decide) ?_ ?_ (by decide) rfl
    · simp only [sortedMatches, List.length_mergeSort]
      decide
    · simp only [sortedMatches, mergeSort_clickLE_eq_reference]
      decide

/-! ### Helper lemmas: document update and the anchor interception -/

theorem find_congruent {α : Type} (f g : α → Bool) (h : ∀ x, f x = g x) :
    ∀ l : List α, l.find? f = l.find? g := by
  intro l
  induction l with
  | nil => rfl
  | cons a l ih =>
    by_cases ha : f a = true
    · rw [List.find?_cons_of_pos _ ha, List.find?_cons_of_pos _ ((h a) ▸ ha)]
    · rw [List.find?_cons_of_neg _ ha, List.find?_cons_of_neg _ ((h a) ▸ ha), ih]

theorem removeTargetData_tag (e : ElemData) : (removeTargetData e).tag = e.tag := rfl

theorem lookupAttr_dropTarget_target :
    ∀ l : List (String × String), lookupAttr (dropTargetAttr l) "target" = none := by
  intro l
  induction l with
  | nil => rfl
  | cons kv l ih =>
    by_cases h : (kv.1 == "target") = true
    · simp [dropTargetAttr, h, ih]
    · simp [dropTargetAttr, lookupAttr, h, ih]

theorem getAttr_removeTargetData_target (e : ElemData) :
    getAttr (removeTargetData e) "target" = none :=
  lookupAttr_dropTarget_target e.attrs

theorem lookupAttr_dropTarget_other (name : String) (h : ¬name = "target") :
    ∀ l : List (String × String),
      lookupAttr (dropTargetAttr l) name = lookupAttr l name := by
  intro l
  induction l with
  | nil => rfl
  | cons kv l ih =>
    by_cases ht : (kv.1 == "target") = true
    · have hn : (kv.1 == name) = false := by
        rw [show kv.1 = "target" from by simpa using ht]
        simp only [beq_eq_false_iff_ne, ne_eq]
        exact fun hh => h hh.symm
      simp [dropTargetAttr, lookupAttr, ht, hn, ih]
    · by_cases hn : (kv.1 == name) = true
      · simp [dropTargetAttr, lookupAttr, ht, hn]
      · simp [dropTargetAttr, lookupAttr, ht, hn, ih]

theorem getAttr_removeTargetData_other (e : ElemData) (name : String)
    (h : ¬name = "target") :
    getAttr (removeTargetData e) name = getAttr e name :=
  lookupAttr_dropTarget_other name h e.attrs

theorem forestGet_updateForest (f : ElemData → ElemData) :
    ∀ (cs : DomForest) (i : Nat) (p : DPath) (j : Nat),
      forestGet (updateForest cs i p f) j =
        if j = i then (forestGet cs i).map (fun c => updateNode c p f)
        else forestGet cs j
  | .nil, i, p, j => by cases i <;> cases j <;> simp [updateForest, forestGet]
  | .cons c cs, i, p, j => by
    cases i with
    | zero => cases j <;> simp [updateForest, forestGet]
    | succ i =>
      cases j with
      | zero => simp [updateForest, forestGet]
      | succ j =>
        simpa [updateForest, forestGet] using forestGet_updateForest f cs i p j

theorem dataAt_child (e : ElemData) (cs : DomForest) (c : DomNode) (j : Nat) (q : DPath)
    (h : forestGet cs j = some c) :
    dataAt (DomNode.elem e cs) (j :: q) = dataAt c q := by
  simp [dataAt, nodeAt, h]

theorem dataAt_child_none (e : ElemData) (cs : DomForest) (j : Nat) (q : DPath)
    (h : forestGet cs j = none) :
    dataAt (DomNode.elem e cs) (j :: q) = none := by
  simp [dataAt, nodeAt, h]

/-- Updating the element at `p` changes `dataAt` exactly at `p` (by `f`) and
nowhere else. -/
theorem dataAt_updateNode (f : ElemData → ElemData) :
    ∀ (p : DPath) (n : DomNode) (q : DPath),
      dataAt (updateNode n p f) q =
        if q = p then (dataAt n p).map f else dataAt n q := by
  intro p
  induction p with
  | nil =>
    intro n q
    cases n with
    | elem e cs =>
      cases q with
      | nil => simp [updateNode, dataAt, nodeAt]
      | cons j q' => simp [updateNode, dataAt, nodeAt]
    | textNode s =>
      cases q with
      | nil => simp [updateNode, dataAt, nodeAt]
      | cons j q' => simp [updateNode, dataAt, nodeAt]
  | cons i p' ih =>
    intro n q
    cases n with
    | textNode s =>
      cases q with
      | nil => simp [updateNode, dataAt, nodeAt]
      | cons j q' => simp [updateNode, dataAt, nodeAt]
    | elem e cs =>
      cases q with
      | nil => simp [updateNode, dataAt, nodeAt]
      | cons j q' =>
        by_cases hji : j = i
        · subst hji
          cases hc : forestGet cs j with
          | none =>
            rw [show updateNode (DomNode.elem e cs) (j :: p') f =
                DomNode.elem e (updateForest cs j p' f) from rfl]
            rw [dataAt_child_none e _ j q'
              (by rw [forestGet_updateForest, hc]; simp)]
            rw [dataAt_child_none e cs j p' hc]
            by_cases hq : q' = p' <;> simp [hq, dataAt_child_none e cs j q' hc]
          | some c =>
            rw [show updateNode (DomNode.elem e cs) (j :: p') f =
                DomNode.elem e (updateForest cs j p' f) from rfl]
            rw [dataAt_child e _ (updateNode c p' f) j q'
              (by rw [forestGet_updateForest, hc]; simp)]
            rw [ih c q', dataAt_child e cs c j p' hc]
            by_cases hq : q' = p' <;> simp [hq, dataAt_child e cs c j q' hc]
        · rw [show updateNode (DomNode.elem e cs) (i :: p') f =
              DomNode.elem e (updateForest cs i p' f) from rfl]
          have hg : forestGet (updateForest cs i p' f) j = forestGet cs j := by
            rw [forestGet_updateForest]; simp [hji]
          have hne : ¬(j :: q') = (i :: p') := by simp [hji]
          cases hc : forestGet cs j with
          | none =>
            rw [dataAt_child_none e _ j q' (hg ▸ hc), dataAt_child_none e cs j q' hc]
            simp [hne]
          | some c =>
            rw [dataAt_child e _ c j q' (hg ▸ hc), dataAt_child e cs c j q' hc]
            simp [hne]

/-- `closest('a')` is unaffected by removing a `target` attribute anywhere. -/
theorem closestAnchor_update (root : DomNode) (lp : DPath) (b b' : DPath) (q : DPath) :
    closestAnchor ⟨updateNode root lp removeTargetData, b⟩ q = closestAnchor ⟨root, b'⟩ q := by
  unfold closestAnchor
  apply find_congruent
  intro x
  show (match dataAt (updateNode root lp removeTargetData) x with
    | some e => strToLower e.tag == "a"
    | none => false) = _
  rw [dataAt_updateNode]
  by_cases hx : x = lp
  · subst hx
    cases dataAt root x <;> simp [removeTargetData_tag]
  · simp [hx]

/-- After the `target` removal the anchor default action navigates the current
page: the activation of any click event on the intercepted target. -/
theorem anchorActivate_after_removal (d : Document) (tp lp : DPath) (a : ElemData)
    (href : String) (st : PageState)
    (hc : closestAnchor d tp = some lp) (hda : dataAt d.root lp = some a)
    (hh : getAttr a "href" = some href)
    (hdoc : st.doc = { root := updateNode d.root lp removeTargetData,
                       bodyPath := d.bodyPath }) :
    anchorActivate st tp = { st with locationHref := href } := by
  have hclosest : closestAnchor st.doc tp = some lp := by
    rw [hdoc]
    rw [closestAnchor_update d.root lp d.bodyPath d.bodyPath tp]
    rw [show (⟨d.root, d.bodyPath⟩ : Document) = d from rfl]
    exact hc
  have hdata : dataAt st.doc.root lp = some (removeTargetData a) := by
    rw [hdoc]
    show dataAt (updateNode d.root lp removeTargetData) lp = _
    rw [dataAt_updateNode]
    simp [hda]
  unfold anchorActivate
  simp only [hclosest, hdata, getAttr_removeTargetData_other a "href" (by decide), hh,
    getAttr_removeTargetData_target]

/-- An action is one of the click dispatches on the target `tp`. -/
def isClickDispatchAt (tp : DPath) (x : ClickAction) : Prop :=
  x = ClickAction.nativeClick tp ∨
  (∃ b c cx cy, x = ClickAction.syntheticMouseEvent tp b c cx cy) ∨
  (∃ b, x = ClickAction.bareClickEvent tp b)

/-- Running only click dispatches over a page whose anchor has lost its
`target` attribute: the document, override flag and context count are
preserved and (once at least one dispatch ran) the location is the anchor's
`href`. -/
theorem runClickActions_dispatches (d : Document) (tp lp : DPath) (a : ElemData)
    (href : String)
    (hc : closestAnchor d tp = some lp) (hda : dataAt d.root lp = some a)
    (hh : getAttr a "href" = some href) :
    ∀ rest : List ClickAction, (∀ x ∈ rest, isClickDispatchAt tp x) →
      ∀ s : PageState,
        s.doc = { root := updateNode d.root lp removeTargetData, bodyPath := d.bodyPath } →
        (runClickActions s rest).doc = s.doc ∧
        (runClickActions s rest).openedContexts = s.openedContexts ∧
        (runClickActions s rest).windowOpenOverridden = s.windowOpenOverridden ∧
        (rest ≠ [] → (runClickActions s rest).locationHref = href) := by
  intro rest
  induction rest with
  | nil => intro _ s _; simp [runClickActions]
  | cons x rest ih =>
    intro hmem s hs
    have hxact : stepClickAction s x = anchorActivate s tp := by
      rcases hmem x (List.mem_cons_self x rest) with h1 | ⟨b, c, cx, cy, h1⟩ | ⟨b, h1⟩ <;>
        subst h1 <;> rfl
    have hstep : stepClickAction s x = { s with locationHref := href } := by
      rw [hxact]
      exact anchorActivate_after_removal d tp lp a href s hc hda hh hs
    have hdoc' : (stepClickAction s x).doc =
        { root := updateNode d.root lp removeTargetData, bodyPath := d.bodyPath } := by
      rw [hstep]; exact hs
    have hrest := ih (fun y hy => hmem y (List.mem_cons_of_mem x hy))
      (stepClickAction s x) hdoc'
    refine ⟨?_, ?_, ?_, ?_⟩
    · show (runClickActions (stepClickAction s x) rest).doc = s.doc
      rw [hrest.1, hstep]
    · show (runClickActions (stepClickAction s x) rest).openedContexts = s.openedContexts
      rw [hrest.2.1, hstep]
    · show (runClickActions (stepClickAction s x) rest).windowOpenOverridden =
        s.windowOpenOverridden
      rw [hrest.2.2.1, hstep]
    · intro _
      show (runClickActions (stepClickAction s x) rest).locationHref = href
      cases rest with
      | nil => rw [show runClickActions (stepClickAction s x) [] = stepClickAction s x
          from rfl, hstep]
      | cons y ys => exact hrest.2.2.2 (by simp)

/-! ### C6 -/

/-- C6: for a click whose resolved target is or is inside an anchor, the
interception runs before any click dispatch: the interaction action list starts
with the `target` removal on the nearest anchor and the `window.open`
replacement, and only then the click stages; running the actions never opens a
secondary browsing context, leaves `window.open` replaced, navigates the
current page to the anchor's `href`, and leaves the anchor without a `target`
attribute.  The installed `window.open` replacement itself always navigates the
current page and returns null.  `clickSelector` performs the same interception
before its native click. -/
theorem click_anchor_interception
    (d : Document) (tp lp : DPath) (e a : ElemData) (href : String) (st : PageState)
    (hde : dataAt d.root tp = some e)
    (hc : closestAnchor d tp = some lp)
    (hda : dataAt d.root lp = some a)
    (hh : getAttr a "href" = some href)
    (hst : st.doc = d) :
    (∃ rest, clickTextInteraction d tp e =
        ClickAction.removeTargetAttr lp :: ClickAction.overrideWindowOpen :: rest ∧
        rest ≠ [] ∧ ∀ x ∈ rest, (strategyOfAction x).isSome = true) ∧
    ((runClickActions st (clickTextInteraction d tp e)).openedContexts =
        st.openedContexts ∧
     (runClickActions st (clickTextInteraction d tp e)).windowOpenOverridden = true ∧
     (runClickActions st (clickTextInteraction d tp e)).locationHref = href ∧
     (dataAt (runClickActions st (clickTextInteraction d tp e)).doc.root lp).map
        (fun x => hasAttr x "target") = some false) ∧
    (∀ (s : PageState) (url : String),
      (overriddenWindowOpen s (some url)).1.openedContexts = s.openedContexts ∧
      (overriddenWindowOpen s (some url)).1.locationHref = url ∧
      (overriddenWindowOpen s (some url)).2 = none) ∧
    (∀ (se : SelElem) (attempt : Nat) (tr : SelTrace),
      selClickable se = true → (se.tagName == "A" || se.closestAnchorSome) = true →
      (clickSelCheck se attempt tr).2.actions =
        tr.actions ++ [SelAction.removeTargetAttr, SelAction.overrideWindowOpen,
          SelAction.nativeClick] ∧
      (clickSelCheck se attempt tr).1.found = true) := by
  have hcond : (e.tag == "A" || (closestAnchor d tp).isSome) = true := by
    rw [hc]; simp
  have hlp : (if e.tag == "A" then some tp else closestAnchor d tp) = some lp := by
    by_cases htag : (e.tag == "A") = true
    · have htp : closestAnchor d tp = some tp := by
        unfold closestAnchor
        rw [List.find?_cons_of_pos]
        show (match dataAt d.root tp with
          | some x => strToLower x.tag == "a"
          | none => false) = true
        rw [hde]
        show (strToLower e.tag == "a") = true
        rw [show e.tag = "A" from by simpa using htag]
        decide
      rw [if_pos htag, ← htp, hc]
    · rw [if_neg htag, hc]
  have hpro : anchorPrologue d tp e =
      [ClickAction.removeTargetAttr lp, ClickAction.overrideWindowOpen] := by
    unfold anchorPrologue
    rw [if_pos hcond, hlp]
  have hrest : ∃ rest, clickTextInteraction d tp e =
      ClickAction.removeTargetAttr lp :: ClickAction.overrideWindowOpen :: rest ∧
      rest ≠ [] ∧ (∀ x ∈ rest, (strategyOfAction x).isSome = true) ∧
      (∀ x ∈ rest, isClickDispatchAt tp x) := by
    by_cases hf : e.clickIsFunction = true
    · by_cases ht : e.nativeClickThrows = true
      · refine ⟨[ClickAction.nativeClick tp, ClickAction.bareClickEvent tp true],
          ?_, by simp, ?_, ?_⟩
        · simp [clickTextInteraction, performClick, hpro, hf, ht]
        · intro x hx
          simp only [List.mem_cons, List.not_mem_nil, or_false] at hx
          rcases hx with rfl | rfl <;> rfl
        · intro x hx
          simp only [List.mem_cons, List.not_mem_nil, or_false] at hx
          rcases hx with rfl | rfl
          · exact Or.inl rfl
          · exact Or.inr (Or.inr ⟨true, rfl⟩)
      · refine ⟨[ClickAction.nativeClick tp], ?_, by simp, ?_, ?_⟩
        · simp [clickTextInteraction, performClick, hpro, hf, ht]
        · intro x hx
          simp only [List.mem_cons, List.not_mem_nil, or_false] at hx
          rcases hx with rfl
          rfl
        · intro x hx
          simp only [List.mem_cons, List.not_mem_nil, or_false] at hx
          rcases hx with rfl
          exact Or.inl rfl
    · by_cases ht : e.syntheticDispatchThrows = true
      · refine ⟨[ClickAction.syntheticMouseEvent tp true true
            (2 * e.rectLeft + (e.rectWidth : Int)) (2 * e.rectTop + (e.rectHeight : Int)),
            ClickAction.bareClickEvent tp true], ?_, by simp, ?_, ?_⟩
        · simp [clickTextInteraction, performClick, hpro, hf, ht]
        · intro x hx
          simp only [List.mem_cons, List.not_mem_nil, or_false] at hx
          rcases hx with rfl | rfl <;> rfl
        · intro x hx
          simp only [List.mem_cons, List.not_mem_nil, or_false] at hx
          rcases hx with rfl | rfl
          · exact Or.inr (Or.inl ⟨_, _, _, _, rfl⟩)
          · exact Or.inr (Or.inr ⟨true, rfl⟩)
      · refine ⟨[ClickAction.syntheticMouseEvent tp true true
            (2 * e.rectLeft + (e.rectWidth : Int)) (2 * e.rectTop + (e.rectHeight : Int))],
            ?_, by simp, ?_, ?_⟩
        · simp [clickTextInteraction, performClick, hpro, hf, ht]
        · intro x hx
          simp only [List.mem_cons, List.not_mem_nil, or_false] at hx
          rcases hx with rfl
          rfl
        · intro x hx
          simp only [List.mem_cons, List.not_mem_nil, or_false] at hx
          rcases hx with rfl
          exact Or.inr (Or.inl ⟨_, _, _, _, rfl⟩)
  obtain ⟨rest, hacts, hne, hstrat, hdisp⟩ := hrest
  refine ⟨⟨rest, hacts, hne, hstrat⟩, ?_, ?_, ?_⟩
  · rw [hacts]
    have h2 : runClickActions st (ClickAction.removeTargetAttr lp ::
        ClickAction.overrideWindowOpen :: rest) =
        runClickActions
          { st with
            doc := { root := updateNode st.doc.root lp removeTargetData,
                     bodyPath := st.doc.bodyPath },
            windowOpenOverridden := true } rest := rfl
    rw [h2]
    have hdoc0 : ({ st with
        doc := { root := updateNode st.doc.root lp removeTargetData,
                 bodyPath := st.doc.bodyPath },
        windowOpenOverridden := true } : PageState).doc =
        { root := updateNode d.root lp removeTargetData, bodyPath := d.bodyPath } := by
      rw [hst]
    have hrun := runClickActions_dispatches d tp lp a href hc hda hh rest hdisp _ hdoc0
    refine ⟨?_, ?_, ?_, ?_⟩
    · rw [hrun.2.1]
    · rw [hrun.2.2.1]
    · exact hrun.2.2.2 hne
    · rw [hrun.1, hdoc0]
      show (dataAt (updateNode d.root lp removeTargetData) lp).map
        (fun x => hasAttr x "target") = some false
      rw [dataAt_updateNode, if_pos rfl, hda]
      show some (hasAttr (removeTargetData a) "target") = some false
      rw [show hasAttr (removeTargetData a) "target" =
        (getAttr (removeTargetData a) "target").isSome from rfl]
      rw [getAttr_removeTargetData_target]
      rfl
  · intro s url
    exact ⟨rfl, rfl, rfl⟩
  · intro se attempt tr hsel hanchor
    constructor
    · simp [clickSelCheck, hsel, hanchor]
    · simp [clickSelCheck, hsel]

/-- C6 witness: clicking the `<a href="https://example.com/page2"
target="_blank">` document navigates the current page and opens no secondary
context. -/
theorem click_anchor_interception_witness :
    (runClickActions ⟨dAnchor, "about:start", false, 0⟩
        (clickTextInteraction dAnchor [0, 0] blankAnchorElem)).openedContexts = 0 ∧
    (runClickActions ⟨dAnchor, "about:start", false, 0⟩
        (clickTextInteraction dAnchor [0, 0] blankAnchorElem)).windowOpenOverridden = true ∧
    (runClickActions ⟨dAnchor, "about:start", false, 0⟩
        (clickTextInteraction dAnchor [0, 0] blankAnchorElem)).locationHref =
      "https://example.com/page2" := by
  have h := click_anchor_interception dAnchor [0, 0] [0, 0] blankAnchorElem blankAnchorElem
    "https://example.com/page2" ⟨dAnchor, "about:start", false, 0⟩
    (by decide) (by decide) (by decide) (by decide) rfl
  exact ⟨h.2.1.1, h.2.1.2.1, h.2.1.2.2.1⟩

/-! ### Helper lemmas: the selector retry loop -/

/-- If every query misses, the loop performs `2 n` queries with one 1000 ms
wait per attempt and ends in the not-found failure. -/
theorem selectorGo_all_none (query : Nat → Option SelElem) (sel : String)
    (check : SelElem → Nat → SelTrace → SelEvalResult × SelTrace) :
    ∀ (n attempt : Nat) (tr : SelTrace),
      (∀ i, i < 2 * n → query (tr.queries + i) = none) →
      selectorGo query sel check n attempt tr =
        ({ found := false, attempt := none, reason := some (selNotFoundMsg sel),
           tagName := none },
         { queries := tr.queries + 2 * n,
           waitsMs := tr.waitsMs ++ List.replicate n 1000,
           actions := tr.actions }) := by
  intro n
  induction n with
  | zero =>
    intro attempt tr _
    simp [selectorGo]
  | succ n ih =>
    intro attempt tr h
    have h0 : query tr.queries = none := by simpa using h 0 (by omega)
    have h1 : query (tr.queries + 1) = none := by simpa using h 1 (by omega)
    have hrec := ih (attempt + 1)
      { queries := tr.queries + 2, waitsMs := tr.waitsMs ++ [1000], actions := tr.actions }
      (by
        intro i hi
        have := h (i + 2) (by omega)
        simpa [Nat.add_assoc, Nat.add_comm, Nat.add_left_comm] using this)
    rw [show selectorGo query sel check (n + 1) attempt tr =
        selectorGo query sel check n (attempt + 1)
          { queries := tr.queries + 2, waitsMs := tr.waitsMs ++ [1000],
            actions := tr.actions } from by
      simp [selectorGo, h0, h1]]
    rw [hrec]
    refine congrArg _ ?_
    have hq : tr.queries + 2 + 2 * n = tr.queries + 2 * (n + 1) := by omega
    have hw : (tr.waitsMs ++ [1000]) ++ List.replicate n 1000 =
        tr.waitsMs ++ List.replicate (n + 1) 1000 := by
      rw [List.append_assoc]
      rfl
    rw [hq, hw]

/-- If the first query that hits is the `t`-th one overall, the loop hands its
element to the check at once: `t + 1` queries total, `(t + 1) / 2` waits, and
the attempt counter advanced by `t / 2`. -/
theorem selectorGo_first_some (query : Nat → Option SelElem) (sel : String)
    (check : SelElem → Nat → SelTrace → SelEvalResult × SelTrace) :
    ∀ (n attempt : Nat) (tr : SelTrace) (t : Nat) (e : SelElem),
      t < 2 * n →
      (∀ i, i < t → query (tr.queries + i) = none) →
      query (tr.queries + t) = some e →
      selectorGo query sel check n attempt tr =
        check e (attempt + t / 2)
          { queries := tr.queries + t + 1,
            waitsMs := tr.waitsMs ++ List.replicate ((t + 1) / 2) 1000,
            actions := tr.actions } := by
  intro n
  induction n with
  | zero => intro attempt tr t e ht; omega
  | succ n ih =>
    intro attempt tr t e ht hnone hsome
    match t with
    | 0 =>
      have h0 : query tr.queries = some e := by simpa using hsome
      rw [show selectorGo query sel check (n + 1) attempt tr =
          check e attempt
            { queries := tr.queries + 1, waitsMs := tr.waitsMs, actions := tr.actions }
          from by simp [selectorGo, h0]]
      norm_num
    | 1 =>
      have h0 : query tr.queries = none := by simpa using hnone 0 (by omega)
      have h1 : query (tr.queries + 1) = some e := hsome
      rw [show selectorGo query sel check (n + 1) attempt tr =
          check e attempt
            { queries := tr.queries + 2, waitsMs := tr.waitsMs ++ [1000],
              actions := tr.actions }
          from by simp [selectorGo, h0, h1]]
      norm_num [List.replicate_succ]
    | k + 2 =>
      have h0 : query tr.queries = none := by simpa using hnone 0 (by omega)
      have h1 : query (tr.queries + 1) = none := by simpa using hnone 1 (by omega)
      rw [show selectorGo query sel check (n + 1) attempt tr =
          selectorGo query sel check n (attempt + 1)
            { queries := tr.queries + 2, waitsMs := tr.waitsMs ++ [1000],
              actions := tr.actions } from by
        simp [selectorGo, h0, h1]]
      have hrec := ih (attempt + 1)
        { queries := tr.queries + 2, waitsMs := tr.waitsMs ++ [1000],
          actions := tr.actions } k e (by omega)
        (by
          intro i hi
          have := hnone (i + 2) (by omega)
          simpa [Nat.add_assoc, Nat.add_comm, Nat.add_left_comm] using this)
        (by
          show query (tr.queries + 2 + k) = some e
          have : tr.queries + 2 + k = tr.queries + (k + 2) := by omega
          rw [this]
          exact hsome)
      rw [hrec]
      have ha : attempt + 1 + k / 2 = attempt + (k + 2) / 2 := by omega
      have hq : tr.queries + 2 + k + 1 = tr.queries + (k + 2) + 1 := by omega
      have hw : (tr.waitsMs ++ [1000]) ++ List.replicate ((k + 1) / 2) 1000 =
          tr.waitsMs ++ List.replicate ((k + 2 + 1) / 2) 1000 := by
        rw [List.append_assoc]
        have : (k + 2 + 1) / 2 = (k + 1) / 2 + 1 := by omega
        rw [this, List.replicate_succ]
        rfl
      rw [ha, hq, hw]

theorem selNotFoundMsg_head (sel : String) :
    (selNotFoundMsg sel).data.head? = some 'N' := by
  show (("No element found after 3 attempts: " ++ quoteStr sel).data).head? = some 'N'
  rw [String.data_append]
  rfl

/-! ### C7 -/

/-- C7 counterexample: on a page whose selector matches a visible but
`disabled` element, `hoverSelector` succeeds — its check has no `disabled`
condition — rather than terminating with the NotInteractable failure the claim
asserts for both selector tools (`clickSelector` does fail as claimed). -/
theorem hoverSelector_disabled_counterexample :
    disabledSelElem.hasDisabled = true ∧
    selVisible disabledSelElem = true ∧
    selClickable disabledSelElem = false ∧
    (hoverSelectorEvaluate disabledSelPage "#submit").1.found = true ∧
    (hoverSelectorEvaluate disabledSelPage "#submit").1.reason = none ∧
    (clickSelectorEvaluate disabledSelPage "#submit").1.reason = some notClickableMsg :=
  ⟨rfl, by decide, by decide, by decide, by decide, by decide⟩

/-- C7 (amended): both selector loops make at most 3 attempts, each missing
attempt waiting 1000 ms before the in-attempt re-query; NotFound is reported
only after all 3 attempts (6 queries, 3 waits) are exhausted; an element that
is present but fails the tool's check terminates the loop at once (no further
queries, no interaction) with the distinct found-but-not-interactable message —
where `clickSelector`'s check is zero width/height, visibility hidden, display
none or disabled, while `hoverSelector`'s check omits the disabled
condition. -/
theorem selector_retry_loop :
    (∀ (query : Nat → Option SelElem) (sel : String),
      (∀ i, i < 6 → query i = none) →
      clickSelectorEvaluate query sel =
        ({ found := false, attempt := none, reason := some (selNotFoundMsg sel),
           tagName := none },
         { queries := 6, waitsMs := List.replicate 3 1000, actions := [] })) ∧
    (∀ (query : Nat → Option SelElem) (sel : String) (t : Nat) (e : SelElem),
      t < 6 → (∀ i, i < t → query i = none) → query t = some e →
      selClickable e = false →
      clickSelectorEvaluate query sel =
        ({ found := false, attempt := none, reason := some notClickableMsg,
           tagName := none },
         { queries := t + 1, waitsMs := List.replicate ((t + 1) / 2) 1000,
           actions := [] })) ∧
    (∀ (query : Nat → Option SelElem) (sel : String),
      (∀ i, i < 6 → query i = none) →
      hoverSelectorEvaluate query sel =
        ({ found := false, attempt := none, reason := some (selNotFoundMsg sel),
           tagName := none },
         { queries := 6, waitsMs := List.replicate 3 1000, actions := [] })) ∧
    (∀ (query : Nat → Option SelElem) (sel : String) (t : Nat) (e : SelElem),
      t < 6 → (∀ i, i < t → query i = none) → query t = some e →
      selVisible e = false →
      hoverSelectorEvaluate query sel =
        ({ found := false, attempt := none, reason := some notVisibleMsg,
           tagName := none },
         { queries := t + 1, waitsMs := List.replicate ((t + 1) / 2) 1000,
           actions := [] })) ∧
    (∀ sel : String, selNotFoundMsg sel ≠ notClickableMsg ∧
      selNotFoundMsg sel ≠ notVisibleMsg) := by
  refine ⟨?_, ?_, ?_, ?_, ?_⟩
  · intro query sel h
    have hgo := selectorGo_all_none query sel clickSelCheck 3 1 selTrace0
      (by intro i hi; simpa [selTrace0] using h i (by omega))
    show selectorGo query sel clickSelCheck 3 1 selTrace0 = _
    rw [hgo]
    simp [selTrace0]
  · intro query sel t e ht hnone hsome hnc
    have hgo := selectorGo_first_some query sel clickSelCheck 3 1 selTrace0 t e (by omega)
      (by intro i hi; simpa [selTrace0] using hnone i hi)
      (by simpa [selTrace0] using hsome)
    show selectorGo query sel clickSelCheck 3 1 selTrace0 = _
    rw [hgo]
    simp [clickSelCheck, hnc, selTrace0]
  · intro query sel h
    have hgo := selectorGo_all_none query sel hoverSelCheck 3 1 selTrace0
      (by intro i hi; simpa [selTrace0] using h i (by omega))
    show selectorGo query sel hoverSelCheck 3 1 selTrace0 = _
    rw [hgo]
    simp [selTrace0]
  · intro query sel t e ht hnone hsome hnv
    have hgo := selectorGo_first_some query sel hoverSelCheck 3 1 selTrace0 t e (by omega)
      (by intro i hi; simpa [selTrace0] using hnone i hi)
      (by simpa [selTrace0] using hsome)
    show selectorGo query sel hoverSelCheck 3 1 selTrace0 = _
    rw [hgo]
    simp [hoverSelCheck, hnv, selTrace0]
  · intro sel
    constructor
    · intro h
      have hh := congrArg (fun s => s.data.head?) h
      rw [show (fun s : String => s.data.head?) (selNotFoundMsg sel) =
        (selNotFoundMsg sel).data.head? from rfl, selNotFoundMsg_head] at hh
      exact absurd hh (by decide)
    · intro h
      have hh := congrArg (fun s => s.data.head?) h
      rw [show (fun s : String => s.data.head?) (selNotFoundMsg sel) =
        (selNotFoundMsg sel).data.head? from rfl, selNotFoundMsg_head] at hh
      exact absurd hh (by decide)

/-- C7 witness: the amended theorem instantiated on the always-missing page and
on the hidden-element page. -/
theorem selector_retry_loop_witness :
    clickSelectorEvaluate emptySelPage "#x" =
      ({ found := false, attempt := none, reason := some (selNotFoundMsg "#x"),
         tagName := none },
       { queries := 6, waitsMs := List.replicate 3 1000, actions := [] }) ∧
    hoverSelectorEvaluate hiddenSelPage "#m" =
      ({ found := false, attempt := none, reason := some notVisibleMsg, tagName := none },
       { queries := 1, waitsMs := [], actions := [] }) := by
  constructor
  · exact selector_retry_loop.1 emptySelPage "#x" (fun i _ => rfl)
  · have h := selector_retry_loop.2.2.2.1 hiddenSelPage "#m" 0 hiddenSelElem
      (by omega) (by intro i hi; omega) rfl (by decide)
    simpa using h

/-! ### C8 -/

/-- Rounding `M * h / w` never exceeds `h` when `M ≤ w`: the resized side never
grows. -/
theorem jsRoundDiv_le {M w h : Nat} (hw : 0 < w) (hM : M ≤ w) :
    jsRoundDiv (M * h) w ≤ h := by
  unfold jsRoundDiv
  rw [Nat.div_le_iff_le_mul_add_pred (by omega)]
  have hmul : M * h ≤ w * h := Nat.mul_le_mul_right h hM
  have h2 : 2 * w * h = 2 * (w * h) := by ring
  omega

/-- C8: `processScreenshot` resizes an over-limit image to the provider's
maximum bounding dimension on the larger side with the other side rounded from
the aspect ratio (10000×5000 with "claude" → 8000×4000, with no provider →
2000×1000), the provider table is claude/anthropic 8000, gemini/google 3072,
openai/gpt4 2048 and default 2000, an in-bounds image is returned as the very
same buffer with `wasResized = false`, an out-of-bounds image reports
`wasResized = true`, and the output dimensions never exceed the input's. -/
theorem processScreenshot_resizing :
    processScreenshot ⟨10000, 5000⟩ (some "claude") =
      { processedImage := .resizedPng 8000 4000, originalWidth := 10000,
        originalHeight := 5000, wasResized := true, providerConfig := ⟨"Claude", 8000⟩ } ∧
    processScreenshot ⟨10000, 5000⟩ none =
      { processedImage := .resizedPng 2000 1000, originalWidth := 10000,
        originalHeight := 5000, wasResized := true, providerConfig := ⟨"Default", 2000⟩ } ∧
    processScreenshot ⟨800, 600⟩ none =
      { processedImage := .original ⟨800, 600⟩, originalWidth := 800,
        originalHeight := 600, wasResized := false, providerConfig := ⟨"Default", 2000⟩ } ∧
    ((getProviderConfig (some "claude")).maxImageDimension = 8000 ∧
     (getProviderConfig (some "anthropic")).maxImageDimension = 8000 ∧
     (getProviderConfig (some "gemini")).maxImageDimension = 3072 ∧
     (getProviderConfig (some "google")).maxImageDimension = 3072 ∧
     (getProviderConfig (some "openai")).maxImageDimension = 2048 ∧
     (getProviderConfig (some "gpt4")).maxImageDimension = 2048 ∧
     (getProviderConfig none).maxImageDimension = 2000) ∧
    (∀ (img : Image) (provider : Option String),
      img.width ≤ (getProviderConfig provider).maxImageDimension →
      img.height ≤ (getProviderConfig provider).maxImageDimension →
      (processScreenshot img provider).processedImage = .original img ∧
      (processScreenshot img provider).wasResized = false) ∧
    (∀ (img : Image) (provider : Option String),
      img.width ≠ 0 → img.height ≠ 0 →
      (img.width > (getProviderConfig provider).maxImageDimension ∨
       img.height > (getProviderConfig provider).maxImageDimension) →
      (processScreenshot img provider).wasResized = true) ∧
    (∀ (img : Image) (provider : Option String),
      bufferWidth (processScreenshot img provider).processedImage ≤ img.width ∧
      bufferHeight (processScreenshot img provider).processedImage ≤ img.height) := by
  refine ⟨by decide, by decide, by decide,
    ⟨by decide, by decide, by decide, by decide, by decide, by decide, by decide⟩,
    ?_, ?_, ?_⟩
  · intro img provider hw hh
    have hcond : ¬(img.width ≠ 0 ∧ img.height ≠ 0 ∧
        (img.width > (getProviderConfig provider).maxImageDimension ∨
         img.height > (getProviderConfig provider).maxImageDimension)) := by omega
    constructor
    · simp [processScreenshot, hcond]
    · simp [processScreenshot, hcond]
  · intro img provider hw0 hh0 hor
    have hcond : img.width ≠ 0 ∧ img.height ≠ 0 ∧
        (img.width > (getProviderConfig provider).maxImageDimension ∨
         img.height > (getProviderConfig provider).maxImageDimension) := ⟨hw0, hh0, hor⟩
    simp [processScreenshot, hcond]
  · intro img provider
    by_cases hcond : (img.width ≠ 0 ∧ img.height ≠ 0 ∧
        (img.width > (getProviderConfig provider).maxImageDimension ∨
         img.height > (getProviderConfig provider).maxImageDimension))
    · have hw0 := hcond.1
      have hh0 := hcond.2.1
      have hor := hcond.2.2
      by_cases hwh : img.width > img.height
      · have hMw : (getProviderConfig provider).maxImageDimension ≤ img.width := by omega
        constructor
        · simp only [processScreenshot, if_pos hcond, if_pos hwh, bufferWidth]
          exact hMw
        · simp only [processScreenshot, if_pos hcond, if_pos hwh, bufferHeight]
          exact jsRoundDiv_le (by omega) hMw
      · have hMh : (getProviderConfig provider).maxImageDimension ≤ img.height := by omega
        constructor
        · simp only [processScreenshot, if_pos hcond, if_neg hwh, bufferWidth]
          exact jsRoundDiv_le (by omega) hMh
        · simp only [processScreenshot, if_pos hcond, if_neg hwh, bufferHeight]
          exact hMh
    · constructor
      · simp [processScreenshot, hcond, bufferWidth]
      · simp [processScreenshot, hcond, bufferHeight]

/-- C8 witness: the general clauses instantiated at the concrete images. -/
theorem processScreenshot_resizing_witness :
    (processScreenshot ⟨800, 600⟩ none).processedImage = .original ⟨800, 600⟩ ∧
    (processScreenshot ⟨10000, 5000⟩ (some "claude")).wasResized = true ∧
    bufferWidth (processScreenshot ⟨10000, 5000⟩ (some "claude")).processedImage ≤ 10000 :=
  ⟨(processScreenshot_resizing.2.2.2.2.1 ⟨800, 600⟩ none (by decide) (by decide)).1,
   processScreenshot_resizing.2.2.2.2.2.1 ⟨10000, 5000⟩ (some "claude")
     (by decide) (by decide) (by decide),
   (processScreenshot_resizing.2.2.2.2.2.2 ⟨10000, 5000⟩ (some "claude")).1⟩

/-! ### C9 -/

/-- C9: when the requested occurrence is in range but the clickable-element
resolution lands on a node that is not an HTMLElement, `clickText` performs no
click and throws the occurrence-not-found error reporting the full match
count, despite the occurrence being within range. -/
theorem clickText_nonHTML_target (d : Document) (text : String) (occ : Nat)
    (m : MatchEntry) (e : ElemData)
    (h1 : 1 ≤ occ) (h2 : occ ≤ (sortedMatches d text).length)
    (h3 : (sortedMatches d text).get? (occ - 1) = some m)
    (h4 : dataAt d.root (findClickableElement d text m.path) = some e)
    (h5 : e.isHTMLElement = false) :
    clickTextHandler d text occ =
      (.error (occurrenceMsg occ (matchingElements d text).length text), []) := by
  have hlen : (sortedMatches d text).length = (matchingElements d text).length := by
    simp [sortedMatches]
  have h0 : ¬(matchingElements d text).length = 0 := by omega
  have h2' : ¬(matchingElements d text).length < occ := by omega
  simp only [sortedMatches] at h3
  rw [List.get?_eq_getElem?] at h3
  simp [clickTextHandler, clickTextEvaluate, clickEvalFail, h0, h2', h3, h4, h5]

/-- C9 witness: the SVG anchor document — occurrence 1 of 3 resolves to the
SVG `<a>`, which is not an HTMLElement, and the tool throws the occurrence
message. -/
theorem clickText_nonHTML_target_witness :
    (sortedMatches dSvg "Go").get? 0 = some ⟨[0, 0], 2⟩ ∧
    svgAnchorElem.isHTMLElement = false ∧
    clickTextHandler dSvg "Go" 1 =
      (.error (occurrenceMsg 1 (matchingElements dSvg "Go").length "Go"), []) := by
  have hget : (sortedMatches dSvg "Go").get? 0 = some ⟨[0, 0], 2⟩ := by
    simp only [sortedMatches, mergeSort_clickLE_eq_reference]
    decide
  have hlen : 1 ≤ (sortedMatches dSvg "Go").length := by
    simp only [sortedMatches, List.length_mergeSort]
    decide
  exact ⟨hget, rfl,
    clickText_nonHTML_target dSvg "Go" 1 ⟨[0, 0], 2⟩ svgAnchorElem (by omega) hlen hget
      (by decide) rfl⟩

/-! ### Helper lemmas: the fillForm loop -/

theorem fillField_selector (doc : FillDoc) (f : FieldSpec) :
    (fillField doc f).2.selector = f.sel := by
  cases hl : lookupField doc f with
  | none => simp [fillField, hl]
  | some i =>
    by_cases hth : i.fillThrows = true
    · simp [fillField, hl, hth]
    · by_cases hsel2 : (strToLower i.tagName == "select") = true
      · cases hopt : i.options.find? (fun opt => opt.1 == f.value || opt.2 == f.value) with
        | none => simp [fillField, hl, hth, hsel2, hopt]
        | some opt => simp [fillField, hl, hth, hsel2, hopt]
      · by_cases hck : (effType i == "checkbox" || effType i == "radio") = true
        · simp [fillField, hl, hth, hsel2, hck]
        · simp [fillField, hl, hth, hsel2, hck]

theorem fillFormLoop_length :
    ∀ (fields : List FieldSpec) (doc : FillDoc),
      ((fillFormLoop doc fields).2).length = fields.length := by
  intro fields
  induction fields with
  | nil => intro doc; rfl
  | cons f fs ih => intro doc; simp [fillFormLoop, ih]

theorem fillFormLoop_selector :
    ∀ (fields : List FieldSpec) (doc : FillDoc) (i : Nat),
      ((fillFormLoop doc fields).2.get? i).map FieldReport.selector =
        (fields.get? i).map FieldSpec.sel := by
  intro fields
  induction fields with
  | nil => intro doc i; rfl
  | cons f fs ih =>
    intro doc i
    cases i with
    | zero => simp [fillFormLoop, fillField_selector]
    | succ i => simpa [fillFormLoop] using ih (fillField doc f).1 i

theorem fillFormLoop_append :
    ∀ (xs ys : List FieldSpec) (doc : FillDoc),
      fillFormLoop doc (xs ++ ys) =
        ((fillFormLoop (fillFormLoop doc xs).1 ys).1,
         (fillFormLoop doc xs).2 ++ (fillFormLoop (fillFormLoop doc xs).1 ys).2) := by
  intro xs
  induction xs with
  | nil => intro ys doc; simp [fillFormLoop]
  | cons x xs ih => intro ys doc; simp [fillFormLoop, ih]

theorem fillFormLoop_head_notfound (doc : FillDoc) (f : FieldSpec) (fs : List FieldSpec)
    (h : lookupField doc f = none) :
    fillFormLoop doc (f :: fs) =
      ((fillFormLoop doc fs).1, notFoundFieldReport f :: (fillFormLoop doc fs).2) := by
  simp [fillFormLoop, fillField, h, notFoundFieldReport]

/-! ### C10 -/

/-- C10: `fillForm` is not atomic: every field is attempted in order (the
report list is index-aligned with the field list and echoes each selector);
the handler always resolves with the "Filled k out of n fields" report instead
of throwing; a field whose input cannot be found — or whose DOM operations
throw — contributes a failure report with its reason, leaves the form state
unchanged (so earlier fills persist), and later fields are still processed. -/
theorem fillForm_not_atomic :
    (∀ (doc : FillDoc) (fields : List FieldSpec),
      ((fillFormLoop doc fields).2).length = fields.length) ∧
    (∀ (doc : FillDoc) (fields : List FieldSpec) (i : Nat),
      ((fillFormLoop doc fields).2.get? i).map FieldReport.selector =
        (fields.get? i).map FieldSpec.sel) ∧
    (∀ (doc : FillDoc) (fields : List FieldSpec),
      (fillFormHandler doc fields).1 =
        .ok ("Filled " ++
          toString (((fillFormLoop doc fields).2.filter (fun r => r.filled)).length) ++
          " out of " ++ toString fields.length ++ " fields")) ∧
    (∀ (doc : FillDoc) (f : FieldSpec) (fs : List FieldSpec),
      lookupField doc f = none →
      fillFormLoop doc (f :: fs) =
        ((fillFormLoop doc fs).1, notFoundFieldReport f :: (fillFormLoop doc fs).2)) ∧
    (∀ (doc : FillDoc) (fs : List FieldSpec) (f : FieldSpec),
      lookupField (fillFormLoop doc fs).1 f = none →
      (fillFormLoop doc (fs ++ [f])).1 = (fillFormLoop doc fs).1 ∧
      (fillFormLoop doc (fs ++ [f])).2 =
        (fillFormLoop doc fs).2 ++ [notFoundFieldReport f]) ∧
    (∀ (doc : FillDoc) (f : FieldSpec) (fs : List FieldSpec) (i : FillInput),
      lookupField doc f = some i → i.fillThrows = true →
      fillFormLoop doc (f :: fs) =
        ((fillFormLoop doc fs).1, throwFieldReport f :: (fillFormLoop doc fs).2)) := by
  refine ⟨fun doc fields => fillFormLoop_length fields doc,
    fun doc fields i => fillFormLoop_selector fields doc i,
    ?_, fun doc f fs h => fillFormLoop_head_notfound doc f fs h, ?_, ?_⟩
  · intro doc fields
    simp [fillFormHandler, fillFormSummary, fillFormLoop_length]
  · intro doc fs f h
    have happ := fillFormLoop_append fs [f] doc
    have hone : fillFormLoop (fillFormLoop doc fs).1 [f] =
        ((fillFormLoop (fillFormLoop doc fs).1 []).1,
         notFoundFieldReport f :: (fillFormLoop (fillFormLoop doc fs).1 []).2) :=
      fillFormLoop_head_notfound (fillFormLoop doc fs).1 f [] h
    rw [happ, hone]
    simp [fillFormLoop]
  · intro doc f fs i hl ht
    simp [fillFormLoop, fillField, hl, ht, throwFieldReport]

/-- C10 witness: a three-field form with a missing middle field — the earlier
fill persists, the later field is still filled, and the handler reports 2 out
of 3. -/
theorem fillForm_not_atomic_witness :
    ((fillFormLoop dForm [⟨"#email", "a@b.c", false⟩, ⟨"#missing", "x", false⟩,
        ⟨"#country", "France", false⟩]).2).length = 3 ∧
    (fillFormLoop dForm ([⟨"#email", "a@b.c", false⟩] ++ [⟨"#missing", "x", false⟩])).1 =
      (fillFormLoop dForm [⟨"#email", "a@b.c", false⟩]).1 ∧
    (fillFormHandler dForm [⟨"#email", "a@b.c", false⟩, ⟨"#missing", "x", false⟩,
        ⟨"#country", "France", false⟩]).1 =
      .ok ("Filled " ++ toString (((fillFormLoop dForm [⟨"#email", "a@b.c", false⟩,
          ⟨"#missing", "x", false⟩, ⟨"#country", "France", false⟩]).2.filter
            (fun r => r.filled)).length) ++ " out of " ++ toString (3 : Nat) ++ " fields") := by
  refine ⟨fillForm_not_atomic.1 dForm _, ?_, ?_⟩
  · exact (fillForm_not_atomic.2.2.2.2.1 dForm [⟨"#email", "a@b.c", false⟩]
      ⟨"#missing", "x", false⟩ (by decide)).1
  · exact fillForm_not_atomic.2.2.1 dForm _

end WIT
